import Mathlib

/-!
# AnimationApp: the content browser of `app.js`

A shallow embedding of `src/app.js`: the three renderers, the card and accordion
helpers, the voice selection of `speakText`, the search filter, and the notes
store, followed by the properties of the specification that were checked
against them.

Conventions of the embedding.

* JavaScript strings are Lean `String`s (sequences of Unicode scalar values, that
  is, well-formed JavaScript strings); `utf16Length` is the JavaScript `length`.
* The DOM the application builds has a fixed shape, so it is embedded as typed
  trees (`ViewItem`, `Accordion`, `ContentItem`, `Card`) instead of a generic
  element tree. Text interpolated into `innerHTML` is taken to be plain text.
* Statements that mutate the DOM become explicit state passing; `forEach` loops
  are folds in document order; an exception leaves the mutations made so far.
* Asynchronous fetches are represented by their outcome (`FetchResult`).
-/

namespace AnimationApp

/-! ## JavaScript strings -/

/-- Number of UTF-16 code units of a string: the JavaScript `length`. -/
def utf16Length (s : String) : Nat :=
  (s.data.map (fun c => if c.val.toNat < 65536 then 1 else 2)).sum

/-- Containment on character lists: `q` occurs as a contiguous block of `t`. -/
def includesList (t q : List Char) : Bool :=
  t.tails.any (fun suffix => q.isPrefixOf suffix)

/-- The JavaScript `text.includes(query)`. -/
def includes (text query : String) : Bool :=
  includesList text.data query.data

/-- The JavaScript `s.startsWith(p)`. -/
def startsWith (s p : String) : Bool :=
  p.data.isPrefixOf s.data

/-- The JavaScript `s.split(sep)[0]` for a one-character separator: the part of
`s` before the first occurrence of `sep` (all of `s` when there is none). -/
def splitHead (s : String) (sep : Char) : String :=
  ⟨s.data.takeWhile (fun c => c != sep)⟩

/-- Truthiness of an optional string: `undefined` and `''` are falsy. -/
def truthy : Option String → Bool
  | none => false
  | some s => s != ""

/-- The JavaScript `x || ''` for an optional string. -/
def orEmpty : Option String → String
  | none => ""
  | some s => s

/-- Template-literal interpolation of a possibly missing string property. -/
def interp : Option String → String
  | none => "undefined"
  | some s => s

/-! ## Exceptions and loops -/

/-- The exceptions the embedded code can raise. -/
inductive JSError where
  | typeError (what : String)
  | error (message : String)
  | syntaxError (what : String)
  deriving DecidableEq, Repr

deriving instance DecidableEq for Except

/-- How a statement sequence ended. -/
inductive Outcome where
  | normal
  | thrown (e : JSError)
  deriving DecidableEq, Repr

/-- The JavaScript `xs.forEach(body)` over a state `σ`: the body runs on the
elements in order; an exception stops the loop and keeps the state reached. -/
def forEach {α σ : Type} (xs : List α) (body : α → σ → σ × Outcome) (s : σ) : σ × Outcome :=
  match xs with
  | [] => (s, Outcome.normal)
  | x :: rest =>
    match body x s with
    | (s', Outcome.normal) => forEach rest body s'
    | (s', Outcome.thrown e) => (s', Outcome.thrown e)

/-- The JavaScript `xs.forEach(body)` where `xs` may be `undefined`. -/
def forEachOpt {α σ : Type} (what : String) (xs : Option (List α))
    (body : α → σ → σ × Outcome) (s : σ) : σ × Outcome :=
  match xs with
  | none => (s, Outcome.thrown (JSError.typeError what))
  | some l => forEach l body s

/-! ## Documents -/

/-- A category of a scripts document. -/
structure Category where
  title : String
  phrases : Option (List String)
  deriving DecidableEq, Repr

/-- A module of a scripts document. -/
structure Module where
  id : Option String
  title : String
  categories : Option (List Category)
  deriving DecidableEq, Repr

/-- The parsed `content_<lang>.json`. -/
structure ScriptDocument where
  modules : Option (List Module)
  deriving DecidableEq, Repr

/-- An item of an activities section that is an object. -/
structure ItemObject where
  title : Option String
  artist : Option String
  usage : Option String
  steps : Option (List String)
  name : Option String
  description : Option String
  cue : Option String
  deriving DecidableEq, Repr

/-- An item of an activities section: a bare string or an object. -/
inductive Item where
  | str (s : String)
  | obj (o : ItemObject)
  deriving DecidableEq, Repr

/-- A section of an activities category. -/
structure Section where
  title : String
  type : Option String
  items : Option (List Item)
  deriving DecidableEq, Repr

/-- A category of the activities document. -/
structure ActivityCategory where
  icon : Option String
  title : String
  bpm_range : Option String
  description : Option String
  sections : Option (List Section)
  deriving DecidableEq, Repr

/-- The parsed `activities.json`. -/
structure ActivityDocument where
  categories : Option (List ActivityCategory)
  deriving DecidableEq, Repr

/-- A phrase pair of the library. -/
structure Pair where
  en : String
  ar : String
  deriving DecidableEq, Repr

/-- A topic of a library chapter. -/
structure Topic where
  title : String
  phrases : Option (List Pair)
  deriving DecidableEq, Repr

/-- A chapter of the library document. -/
structure Chapter where
  id : Option String
  title : String
  topics : Option (List Topic)
  deriving DecidableEq, Repr

/-- The parsed `library.json`. -/
structure LibraryDocument where
  chapters : Option (List Chapter)
  deriving DecidableEq, Repr

/-! ## The DOM built by the renderers -/

/-- The inline `style.display` of a card. -/
inductive Display where
  | unset
  | flex
  | none
  deriving DecidableEq, Repr

/-- What a click on an action button does. -/
inductive Action where
  | speak (text lang : String)
  | copy (text : String)
  | delete (index : Nat)
  deriving DecidableEq, Repr

/-- A child of a card's `.action-buttons` element. -/
structure Button where
  className : List String
  label : String
  onclick : Action
  deriving DecidableEq, Repr

/-- The markup assigned to a card through `innerHTML`, one constructor per template. -/
inductive CardBody where
  | cardText (text : String)
  | warning (item : String)
  | playlist (title artist usage : String)
  | routine (title : String) (steps : List String)
  | instruction (name description cue : String)
  | libraryPair (en ar : String)
  deriving DecidableEq, Repr

/-- A card element: its class tokens, inline display, markup, and the children of
its `.action-buttons` element (empty when the card has none). -/
structure Card where
  className : List String
  display : Display
  body : CardBody
  actions : List Button
  deriving DecidableEq, Repr

/-- A child of an accordion's `.module-content` element. -/
inductive ContentItem where
  | categoryTitle (text : String)
  | desc (text : String)
  | card (c : Card)
  deriving DecidableEq, Repr

/-- A `.module-container` element; `isOpen` is the presence of the class `open`. -/
structure Accordion where
  id : Option String
  headerHtml : String
  isOpen : Bool
  content : List ContentItem
  deriving DecidableEq, Repr

/-- A child of one of the view containers. -/
inductive ViewItem where
  | accordion (a : Accordion)
  | card (c : Card)
  | paragraph (style text : String)
  deriving DecidableEq, Repr

/-- The children of a container element, in document order. -/
abbrev Container := List ViewItem

/-- The DOM `parent.appendChild(child)`. -/
def appendChild {α : Type} (parent : List α) (child : α) : List α :=
  parent ++ [child]

/-! ## Helper functions of section 6 of `app.js` -/

/-- The function `createAccordion(titleHtml, id)`. -/
def createAccordion (titleHtml : String) (id : Option String) : Accordion :=
  { id := if truthy id then id else none
    headerHtml := titleHtml
    isOpen := false
    content := [] }

/-- The function `createCard(text, withAudio, langCode)`. -/
def createCard (text : String) (withAudio : Bool) (langCode : String) : Card :=
  let actionsDiv : List Button := []
  let actionsDiv :=
    if withAudio then
      appendChild actionsDiv
        { className := ["icon-btn", "speak-btn"], label := "🔊", onclick := Action.speak text langCode }
    else actionsDiv
  let actionsDiv := appendChild actionsDiv
    { className := ["icon-btn", "copy-btn"], label := "📋", onclick := Action.copy text }
  { className := ["card", "phrase-card"]
    display := Display.unset
    body := CardBody.cardText text
    actions := actionsDiv }

/-! ## Renderers of section 5 of `app.js` -/

/-- The body of `cat.phrases.forEach` in `renderScripts`. -/
def scriptPhraseStep (currentLang : String) (phrase : String) (content : List ContentItem) :
    List ContentItem × Outcome :=
  let card := createCard phrase true currentLang
  (appendChild content (ContentItem.card card), Outcome.normal)

/-- The body of `mod.categories.forEach` in `renderScripts`. -/
def scriptCategoryStep (currentLang : String) (cat : Category) (content : List ContentItem) :
    List ContentItem × Outcome :=
  let content := appendChild content (ContentItem.categoryTitle cat.title)
  forEachOpt "cat.phrases" cat.phrases (scriptPhraseStep currentLang) content

/-- The body of `modules.forEach` in `renderScripts`: the accordion is appended to
the container only after its content was built. -/
def scriptModuleStep (currentLang : String) (mod : Module) (container : Container) :
    Container × Outcome :=
  let modDiv := createAccordion mod.title mod.id
  match forEachOpt "mod.categories" mod.categories (scriptCategoryStep currentLang) modDiv.content with
  | (content, Outcome.normal) =>
    (appendChild container (ViewItem.accordion { modDiv with content := content }), Outcome.normal)
  | (_, Outcome.thrown e) => (container, Outcome.thrown e)

/-- The function `renderScripts(modules)`, run on the scripts container. -/
def renderScripts (currentLang : String) (modules : Option (List Module))
    (_scriptsContainer : Container) : Container × Outcome :=
  let scriptsContainer : Container := []
  forEachOpt "modules" modules (scriptModuleStep currentLang) scriptsContainer

/-- The header markup of an activities accordion:
`${cat.icon || ''} ${cat.title} <small>(${cat.bpm_range || ''})</small>`. -/
def activityHeader (cat : ActivityCategory) : String :=
  orEmpty cat.icon ++ " " ++ cat.title ++ " <small>(" ++ orEmpty cat.bpm_range ++ ")</small>"

/-- The card built for one item in `renderActivities`: its class is `card` alone, and
the markup is chosen by the item being a string first, then by the section type.
`item.steps.map` raises when a routine has no `steps`. -/
def activityCard (sectionType : Option String) (item : Item) : Except JSError Card :=
  let card : CardBody → Card := fun body =>
    { className := ["card"], display := Display.unset, body := body, actions := [] }
  match item with
  | Item.str s => Except.ok (card (CardBody.warning s))
  | Item.obj o =>
    if sectionType = some "playlist" then
      Except.ok (card (CardBody.playlist (interp o.title) (interp o.artist) (interp o.usage)))
    else if sectionType = some "routines" then
      match o.steps with
      | none => Except.error (JSError.typeError "item.steps")
      | some steps => Except.ok (card (CardBody.routine (interp o.title) steps))
    else
      Except.ok (card (CardBody.instruction (interp o.name) (interp o.description) (interp o.cue)))

/-- The body of `section.items.forEach` in `renderActivities`. -/
def activityItemStep (sectionType : Option String) (item : Item) (content : List ContentItem) :
    List ContentItem × Outcome :=
  match activityCard sectionType item with
  | Except.error e => (content, Outcome.thrown e)
  | Except.ok card => (appendChild content (ContentItem.card card), Outcome.normal)

/-- The body of `cat.sections.forEach` in `renderActivities`. -/
def activitySectionStep (sec : Section) (content : List ContentItem) : List ContentItem × Outcome :=
  let content := appendChild content (ContentItem.categoryTitle sec.title)
  match sec.items with
  | none => (content, Outcome.normal)
  | some items => forEach items (activityItemStep sec.type) content

/-- The body of `data.categories.forEach` in `renderActivities`. -/
def activityCategoryStep (cat : ActivityCategory) (container : Container) : Container × Outcome :=
  let catDiv := createAccordion (activityHeader cat) none
  let content := catDiv.content
  let content :=
    if truthy cat.description then content ++ [ContentItem.desc (orEmpty cat.description)]
    else content
  let result :=
    match cat.sections with
    | none => (content, Outcome.normal)
    | some sections => forEach sections activitySectionStep content
  match result with
  | (content, Outcome.normal) =>
    (appendChild container (ViewItem.accordion { catDiv with content := content }), Outcome.normal)
  | (_, Outcome.thrown e) => (container, Outcome.thrown e)

/-- The function `renderActivities(data)`, run on the activities container. -/
def renderActivities (data : ActivityDocument) (_activitiesContainer : Container) :
    Container × Outcome :=
  let activitiesContainer : Container := []
  match data.categories with
  | none => (activitiesContainer, Outcome.normal)
  | some categories => forEach categories activityCategoryStep activitiesContainer

/-- The card built for one phrase pair in `renderLibrary`; its speak button is bound
to `en`. -/
def libraryCard (pair : Pair) : Card :=
  let actionsDiv : List Button := []
  let actionsDiv := appendChild actionsDiv
    { className := ["icon-btn", "speak-btn"], label := "🔊", onclick := Action.speak pair.en "en" }
  let actionsDiv := appendChild actionsDiv
    { className := ["icon-btn", "copy-btn"], label := "📋", onclick := Action.copy pair.en }
  { className := ["card", "phrase-card", "library-card"]
    display := Display.unset
    body := CardBody.libraryPair pair.en pair.ar
    actions := actionsDiv }

/-- The body of `topic.phrases.forEach` in `renderLibrary`. -/
def libraryPairStep (pair : Pair) (content : List ContentItem) : List ContentItem × Outcome :=
  (appendChild content (ContentItem.card (libraryCard pair)), Outcome.normal)

/-- The body of `chap.topics.forEach` in `renderLibrary`. -/
def libraryTopicStep (topic : Topic) (content : List ContentItem) : List ContentItem × Outcome :=
  let content := appendChild content (ContentItem.categoryTitle topic.title)
  match topic.phrases with
  | none => (content, Outcome.normal)
  | some phrases => forEach phrases libraryPairStep content

/-- The body of `chapters.forEach` in `renderLibrary`. -/
def libraryChapterStep (chap : Chapter) (container : Container) : Container × Outcome :=
  let chapDiv := createAccordion chap.title chap.id
  let result :=
    match chap.topics with
    | none => (chapDiv.content, Outcome.normal)
    | some topics => forEach topics libraryTopicStep chapDiv.content
  match result with
  | (content, Outcome.normal) =>
    (appendChild container (ViewItem.accordion { chapDiv with content := content }), Outcome.normal)
  | (_, Outcome.thrown e) => (container, Outcome.thrown e)

/-- The function `renderLibrary(chapters)`, run on the library container. -/
def renderLibrary (chapters : Option (List Chapter)) (_libraryContainer : Container) :
    Container × Outcome :=
  let libraryContainer : Container := []
  forEachOpt "chapters" chapters libraryChapterStep libraryContainer

/-! ## Data fetching, section 4 of `app.js` -/

/-- What `await fetch(url)` followed by `await res.json()` delivers: the request is
rejected, or a response arrives with its `ok` flag and, when its body is JSON, the
parsed document. -/
inductive FetchResult (D : Type) where
  | rejected
  | response (ok : Bool) (json : Option D)
  deriving Repr

/-- The resource name `content_${lang}.json`. -/
def scriptsUrl (lang : String) : String :=
  "content_" ++ lang ++ ".json"

/-- The constant `ACTIVITY_URL`. -/
def ACTIVITY_URL : String := "activities.json"

/-- The constant `LIBRARY_URL`. -/
def LIBRARY_URL : String := "library.json"

/-- The placeholder `fetchScripts` shows while the request is pending. -/
def loadingParagraph : ViewItem :=
  ViewItem.paragraph "text-align:center; padding:20px; color:#aaa;" "Loading scripts..."

/-- The message `fetchScripts` shows in its `catch` block. -/
def errorParagraph (url : String) : ViewItem :=
  ViewItem.paragraph "color:var(--danger); text-align:center;" ("Error loading " ++ url)

/-- The function `fetchScripts(lang)` from the moment its request settles:
`currentLang` is the global at that moment, `lang` the argument of the call. -/
def fetchScripts (currentLang lang : String) (result : FetchResult ScriptDocument)
    (_scriptsContainer : Container) : Container :=
  let url := scriptsUrl lang
  let scriptsContainer : Container := [loadingParagraph]
  let tried : Container × Outcome :=
    match result with
    | FetchResult.rejected => (scriptsContainer, Outcome.thrown (JSError.typeError "fetch"))
    | FetchResult.response ok json =>
      if !ok then
        (scriptsContainer, Outcome.thrown (JSError.error ("File " ++ url ++ " not found")))
      else
        match json with
        | none => (scriptsContainer, Outcome.thrown (JSError.syntaxError "res.json"))
        | some data => renderScripts currentLang data.modules scriptsContainer
  match tried with
  | (container, Outcome.normal) => container
  | (_, Outcome.thrown _) => [errorParagraph url]

/-- The function `fetchActivities()` from the moment its request settles; its
`catch` block only writes to the console. -/
def fetchActivities (result : FetchResult ActivityDocument) (activitiesContainer : Container) :
    Container :=
  let tried : Container × Outcome :=
    match result with
    | FetchResult.rejected => (activitiesContainer, Outcome.thrown (JSError.typeError "fetch"))
    | FetchResult.response _ json =>
      match json with
      | none => (activitiesContainer, Outcome.thrown (JSError.syntaxError "res.json"))
      | some data => renderActivities data activitiesContainer
  tried.1

/-- The function `fetchLibrary()` from the moment its request settles; its `catch`
block only writes to the console. -/
def fetchLibrary (result : FetchResult LibraryDocument) (libraryContainer : Container) :
    Container :=
  let tried : Container × Outcome :=
    match result with
    | FetchResult.rejected => (libraryContainer, Outcome.thrown (JSError.typeError "fetch"))
    | FetchResult.response _ json =>
      match json with
      | none => (libraryContainer, Outcome.thrown (JSError.syntaxError "res.json"))
      | some data => renderLibrary data.chapters libraryContainer
  tried.1

/-! ## Text to speech -/

/-- A voice descriptor of the speech engine. -/
structure Voice where
  name : String
  lang : String
  deriving DecidableEq, Repr

/-- The own properties of the object literal `TTS_CODES`. -/
def TTS_CODES : List (String × String) :=
  [("en", "en-US"), ("it", "it-IT"), ("de", "de-DE"), ("es", "es-ES"), ("ru", "ru-RU")]

/-- The property names every object literal inherits from `Object.prototype`; their
values are functions or objects, never strings. -/
def objectPrototypeKeys : List String :=
  ["constructor", "hasOwnProperty", "isPrototypeOf", "propertyIsEnumerable",
   "toLocaleString", "toString", "valueOf", "__proto__",
   "__defineGetter__", "__defineSetter__", "__lookupGetter__", "__lookupSetter__"]

/-- The value of a property access on `TTS_CODES`. -/
inductive PropertyValue where
  | undefined
  | string (s : String)
  | inherited (key : String)
  deriving DecidableEq, Repr

/-- The property access `TTS_CODES[lang]`: own properties first, then the prototype. -/
def TTS_CODES_get (lang : String) : PropertyValue :=
  match TTS_CODES.lookup lang with
  | some tag => PropertyValue.string tag
  | none =>
    if lang ∈ objectPrototypeKeys then PropertyValue.inherited lang
    else PropertyValue.undefined

/-- A `SpeechSynthesisUtterance` as `speakText` configures it; `rate` is in tenths. -/
structure Utterance where
  text : String
  lang : String
  rate : Nat
  voice : Option Voice
  deriving DecidableEq, Repr

/-- The part of the state `speakText` touches: the cached voice list and the
utterances the engine holds (emptied by `cancel`, extended by `speak`). -/
structure SpeechState where
  availableVoices : List Voice
  queue : List Utterance
  deriving DecidableEq, Repr

/-- The function `speakText(text, lang)`; `engineVoices` is what
`speechSynthesis.getVoices()` returns at the time of the call. -/
def speakText (engineVoices : List Voice) (text lang : String) (s : SpeechState) :
    SpeechState × Outcome :=
  let s := { s with queue := [] }
  let refresh : SpeechState → SpeechState := fun s =>
    if s.availableVoices.length = 0 then { s with availableVoices := engineVoices } else s
  match TTS_CODES_get lang with
  | PropertyValue.inherited _ =>
    -- the target is a function or an object: no voice has it as `lang`, and
    -- `targetLangCode.split` is not a function
    (refresh s, Outcome.thrown (JSError.typeError "targetLangCode.split"))
  | value =>
    let targetLangCode :=
      match value with
      | PropertyValue.string tag => tag
      | _ => "en-US"
    let utterance : Utterance := { text := text, lang := targetLangCode, rate := 9, voice := none }
    let s := refresh s
    let selectedVoice := s.availableVoices.find? (fun v => v.lang = targetLangCode)
    let selectedVoice :=
      match selectedVoice with
      | some v => some v
      | none =>
        let shortCode := splitHead targetLangCode '-'
        s.availableVoices.find? (fun v => startsWith v.lang shortCode)
    let utterance := { utterance with voice := selectedVoice }
    ({ s with queue := s.queue ++ [utterance] }, Outcome.normal)

/-! ## Search, section 7 of `app.js` -/

/-- The two browser functions the search handler calls on text and that are not
part of the application: `String.prototype.toLowerCase` and the `innerText` of a
card. The results below hold for every such pair. -/
structure Browser where
  toLowerCase : String → String
  innerText : Card → String
  toLowerCase_empty : toLowerCase "" = ""

/-- The views a navigation button can activate. -/
inductive ViewId where
  | scripts
  | activities
  | library
  | notes
  deriving DecidableEq, Repr

/-- Whether a card matches the selector `.phrase-card, .activity-card`. -/
def matchesSelector (card : Card) : Bool :=
  card.className.contains "phrase-card" || card.className.contains "activity-card"

/-- The body of `cards.forEach` in the search handler for one selected card: the new
card, and whether the class `open` is added to its enclosing module (when it has one). -/
def searchCardStep (B : Browser) (query : String) (card : Card) : Card × Bool :=
  let text := B.toLowerCase (B.innerText card)
  if includes text query then
    ({ card with display := Display.flex }, decide (utf16Length query > 1))
  else
    ({ card with display := Display.none }, false)

/-- The search loop over the children of one `.module-content`, in document order;
`isOpen` is the state of the enclosing module. -/
def searchContent (B : Browser) (query : String) :
    List ContentItem → Bool → List ContentItem × Bool
  | [], isOpen => ([], isOpen)
  | ContentItem.card c :: rest, isOpen =>
    if matchesSelector c then
      let r := searchCardStep B query c
      let tail := searchContent B query rest (isOpen || r.2)
      (ContentItem.card r.1 :: tail.1, tail.2)
    else
      let tail := searchContent B query rest isOpen
      (ContentItem.card c :: tail.1, tail.2)
  | item :: rest, isOpen =>
    let tail := searchContent B query rest isOpen
    (item :: tail.1, tail.2)

/-- The search loop over the children of the active container. A card that is a
direct child has no enclosing `.module-container`. -/
def searchContainer (B : Browser) (query : String) : Container → Container
  | [] => []
  | ViewItem.accordion a :: rest =>
    let r := searchContent B query a.content a.isOpen
    ViewItem.accordion { a with content := r.1, isOpen := r.2 } :: searchContainer B query rest
  | ViewItem.card c :: rest =>
    (if matchesSelector c then ViewItem.card (searchCardStep B query c).1 else ViewItem.card c)
      :: searchContainer B query rest
  | item :: rest => item :: searchContainer B query rest

/-- The click handler `div.classList.toggle('open')` of the header of the child at
position `index`. -/
def toggleAt (index : Nat) (container : Container) : Container :=
  container.modify
    (fun item =>
      match item with
      | ViewItem.accordion a => ViewItem.accordion { a with isOpen := !a.isOpen }
      | other => other)
    index

/-! ## Notes, section 8 of `app.js` -/

/-- The characters `String.prototype.trim` removes: the ECMAScript WhiteSpace and
LineTerminator code points. -/
def isTrimmed (c : Char) : Bool :=
  let n := c.toNat
  n = 9 || n = 10 || n = 11 || n = 12 || n = 13 || n = 32 || n = 160 || n = 5760 ||
  (8192 ≤ n && n ≤ 8202) || n = 8232 || n = 8233 || n = 8239 || n = 8287 || n = 12288 ||
  n = 65279

/-- The JavaScript `s.trim()`. -/
def trim (s : String) : String :=
  ⟨(s.data.dropWhile isTrimmed).rdropWhile isTrimmed⟩

/-- The double quote character. -/
def dquote : Char := Char.ofNat 34

/-- The backslash character. -/
def backslash : Char := Char.ofNat 92

/-- A lower-case hexadecimal digit. -/
def hexDigit (n : Nat) : Char :=
  if n < 10 then Char.ofNat (48 + n) else Char.ofNat (87 + n)

/-- The value of a hexadecimal digit. -/
def hexValue (c : Char) : Option Nat :=
  let n := c.toNat
  if 48 ≤ n ∧ n ≤ 57 then some (n - 48)
  else if 97 ≤ n ∧ n ≤ 102 then some (n - 87)
  else if 65 ≤ n ∧ n ≤ 70 then some (n - 55)
  else none

/-- The text `JSON.stringify` writes for one character of a string. -/
def quoteChar (c : Char) : List Char :=
  if c = dquote then [backslash, dquote]
  else if c = backslash then [backslash, backslash]
  else if c.toNat = 8 then [backslash, 'b']
  else if c.toNat = 12 then [backslash, 'f']
  else if c.toNat = 10 then [backslash, 'n']
  else if c.toNat = 13 then [backslash, 'r']
  else if c.toNat = 9 then [backslash, 't']
  else if c.toNat < 32 then
    [backslash, 'u', '0', '0', hexDigit (c.toNat / 16), hexDigit (c.toNat % 16)]
  else [c]

/-- The text `JSON.stringify` writes for a string: quoted, with escapes. -/
def quoteString (s : String) : List Char :=
  dquote :: (s.data.flatMap quoteChar ++ [dquote])

/-- The text `JSON.stringify` writes for the elements of an array of strings. -/
def quoteElements : List String → List Char
  | [] => []
  | [s] => quoteString s
  | s :: rest => quoteString s ++ ',' :: quoteElements rest

/-- The JavaScript `JSON.stringify(notes)` for an array of strings. -/
def JSON_stringify (notes : List String) : String :=
  ⟨'[' :: (quoteElements notes ++ [']'])⟩

/-- Where the reader of a JSON text stands. -/
inductive Mode where
  | start
  | afterOpen
  | inString
  | escape
  | unicode (digits : List Nat)
  | afterElement
  | afterComma
  | done
  deriving DecidableEq, Repr

/-- The reader of a JSON array of strings: its position, the elements read, and the
characters of the element being read. -/
structure Reader where
  mode : Mode
  elements : List String
  current : List Char
  deriving DecidableEq, Repr

/-- The character a one-letter escape stands for. -/
def unescape (c : Char) : Option Char :=
  if c = dquote then some dquote
  else if c = backslash then some backslash
  else if c = '/' then some '/'
  else if c = 'b' then some (Char.ofNat 8)
  else if c = 'f' then some (Char.ofNat 12)
  else if c = 'n' then some (Char.ofNat 10)
  else if c = 'r' then some (Char.ofNat 13)
  else if c = 't' then some (Char.ofNat 9)
  else none

/-- One character of input. `none` is a text outside the grammar read here: an array
of strings without white space between tokens, escapes of surrogates excluded. -/
def Reader.step (r : Reader) (c : Char) : Option Reader :=
  match r.mode with
  | Mode.start => if c = '[' then some { r with mode := Mode.afterOpen } else none
  | Mode.afterOpen =>
    if c = ']' then some { r with mode := Mode.done }
    else if c = dquote then some { r with mode := Mode.inString, current := [] }
    else none
  | Mode.afterComma =>
    if c = dquote then some { r with mode := Mode.inString, current := [] } else none
  | Mode.afterElement =>
    if c = ']' then some { r with mode := Mode.done }
    else if c = ',' then some { r with mode := Mode.afterComma }
    else none
  | Mode.inString =>
    if c = dquote then
      some { mode := Mode.afterElement, elements := r.elements ++ [⟨r.current⟩], current := [] }
    else if c = backslash then some { r with mode := Mode.escape }
    else if c.toNat < 32 then none
    else some { r with current := r.current ++ [c] }
  | Mode.escape =>
    if c = 'u' then some { r with mode := Mode.unicode [] }
    else
      match unescape c with
      | some x => some { r with mode := Mode.inString, current := r.current ++ [x] }
      | none => none
  | Mode.unicode digits =>
    match hexValue c with
    | none => none
    | some d =>
      let digits := digits ++ [d]
      if digits.length < 4 then some { r with mode := Mode.unicode digits }
      else
        let code := digits.foldl (fun acc x => 16 * acc + x) 0
        if code.isValidChar then
          some { r with mode := Mode.inString, current := r.current ++ [Char.ofNat code] }
        else none
  | Mode.done => none

/-- The reader run over a sequence of characters. -/
def Reader.run (r : Reader) (cs : List Char) : Option Reader :=
  cs.foldlM Reader.step r

/-- What `JSON.parse` returns on the texts read here. -/
inductive Parsed where
  | null
  | strings (xs : List String)
  deriving DecidableEq, Repr

/-- The JavaScript `JSON.parse(text)` on the text `null` and on arrays of strings;
`none` stands for every other text. -/
def JSON_parse (text : String) : Option Parsed :=
  if text = "null" then some Parsed.null
  else
    match Reader.run { mode := Mode.start, elements := [], current := [] } text.data with
    | some r => if r.mode = Mode.done then some (Parsed.strings r.elements) else none
    | none => none

/-- The part of the state the notes code touches: the item `animationNotes` of
`localStorage` (`none` when absent), the children of `notes-container`, and the
value of the note input. -/
structure NotesState where
  localStorage : Option String
  notesContainer : Container
  noteInput : String
  deriving DecidableEq, Repr

/-- The expression `JSON.parse(localStorage.getItem('animationNotes'))`: a missing
item is `null`, and `JSON.parse(null)` is `null`. A stored text outside the texts
`JSON_parse` reads is reported as an exception. -/
def parseStored (item : Option String) : Except JSError Parsed :=
  match item with
  | none => Except.ok Parsed.null
  | some text =>
    match JSON_parse text with
    | some v => Except.ok v
    | none => Except.error (JSError.syntaxError "JSON.parse")

/-- The expression `JSON.parse(localStorage.getItem('animationNotes')) || []`. -/
def parseStoredOrEmpty (item : Option String) : Except JSError (List String) :=
  match parseStored item with
  | Except.ok Parsed.null => Except.ok []
  | Except.ok (Parsed.strings xs) => Except.ok xs
  | Except.error e => Except.error e

/-- The body of `notes.forEach((note, index) => ...)` in `renderNotes`. -/
def noteStep (entry : Nat × String) (container : Container) : Container × Outcome :=
  let card := createCard entry.2 true "en"
  let delBtn : Button :=
    { className := ["delete-btn"], label := "🗑️", onclick := Action.delete entry.1 }
  let card := { card with actions := appendChild card.actions delBtn }
  (appendChild container (ViewItem.card card), Outcome.normal)

/-- The function `renderNotes(notes)`, run on the notes container. -/
def renderNotes (notes : List String) (_notesContainer : Container) : Container :=
  let notesContainer : Container := []
  (forEach notes.enum noteStep notesContainer).1

/-- The function `loadUserNotes()`. -/
def loadUserNotes (s : NotesState) : NotesState × Outcome :=
  match parseStoredOrEmpty s.localStorage with
  | Except.error e => (s, Outcome.thrown e)
  | Except.ok notes =>
    ({ s with notesContainer := renderNotes notes s.notesContainer }, Outcome.normal)

/-- The function `saveNote(text)`. -/
def saveNote (text : String) (s : NotesState) : NotesState × Outcome :=
  match parseStoredOrEmpty s.localStorage with
  | Except.error e => (s, Outcome.thrown e)
  | Except.ok notes =>
    let notes := notes ++ [text]
    let s := { s with localStorage := some (JSON_stringify notes) }
    ({ s with notesContainer := renderNotes notes s.notesContainer }, Outcome.normal)

/-- The submit handler installed by `setupNotes`, run on the current input value. -/
def onNoteSubmit (s : NotesState) : NotesState × Outcome :=
  let text := trim s.noteInput
  if text != "" then
    match saveNote text s with
    | (s, Outcome.normal) => ({ s with noteInput := "" }, Outcome.normal)
    | (s, Outcome.thrown e) => (s, Outcome.thrown e)
  else (s, Outcome.normal)

/-- The JavaScript `notes.splice(index, 1)`: a negative start counts from the end,
a start past the end removes nothing. -/
def splice1 (notes : List String) (index : Int) : List String :=
  let len : Int := notes.length
  let actualStart : Int := if index < 0 then max (len + index) 0 else min index len
  notes.eraseIdx actualStart.toNat

/-- The function `window.deleteNote(index)`; there is no `|| []` here, so a missing
item makes `notes.splice` raise. -/
def deleteNote (index : Int) (s : NotesState) : NotesState × Outcome :=
  match parseStored s.localStorage with
  | Except.error e => (s, Outcome.thrown e)
  | Except.ok Parsed.null => (s, Outcome.thrown (JSError.typeError "notes.splice"))
  | Except.ok (Parsed.strings notes) =>
    let notes := splice1 notes index
    let s := { s with localStorage := some (JSON_stringify notes) }
    ({ s with notesContainer := renderNotes notes s.notesContainer }, Outcome.normal)

/-- The notes sequence the store holds, as `loadUserNotes` reads it. -/
def persistedNotes (s : NotesState) : Except JSError (List String) :=
  parseStoredOrEmpty s.localStorage

/-- The user types `text` into the note input and submits the form. -/
def addNote (text : String) (s : NotesState) : NotesState × Outcome :=
  onNoteSubmit { s with noteInput := text }

/-! ## The application state and its events -/

/-- The mutable state of the page: the globals of section 1, the four containers,
the search input, the notes input and store, and the speech engine. -/
structure AppState where
  currentLang : String
  currentView : ViewId
  speech : SpeechState
  scriptsContainer : Container
  activitiesContainer : Container
  libraryContainer : Container
  notes : NotesState
  searchValue : String
  deriving DecidableEq, Repr

/-- The cards below the element `document.getElementById(currentView)` live in the
container of that view; the notes view holds `notes-container`. -/
def AppState.container (s : AppState) : ViewId → Container
  | ViewId.scripts => s.scriptsContainer
  | ViewId.activities => s.activitiesContainer
  | ViewId.library => s.libraryContainer
  | ViewId.notes => s.notes.notesContainer

/-- Replace the children of the container of one view. -/
def AppState.setContainer (s : AppState) (v : ViewId) (c : Container) : AppState :=
  match v with
  | ViewId.scripts => { s with scriptsContainer := c }
  | ViewId.activities => { s with activitiesContainer := c }
  | ViewId.library => { s with libraryContainer := c }
  | ViewId.notes => { s with notes := { s.notes with notesContainer := c } }

/-- The container the search handler works on. -/
def AppState.activeContainer (s : AppState) : Container :=
  s.container s.currentView

/-- The `input` handler installed by `setupSearch`, run on the value typed. -/
def onSearchInput (B : Browser) (value : String) (s : AppState) : AppState :=
  let query := B.toLowerCase value
  let s := { s with searchValue := value }
  s.setContainer s.currentView (searchContainer B query s.activeContainer)

/-- The click handler installed by `setupNavigation`: the view changes and the
search input is emptied (no `input` event is fired by that assignment). -/
def onNavigate (target : ViewId) (s : AppState) : AppState :=
  { s with currentView := target, searchValue := "" }

/-- The `change` handler installed by `setupLanguageSwitch` up to the first `await`
of `fetchScripts`. -/
def onLanguageChange (lang : String) (s : AppState) : AppState :=
  { s with currentLang := lang, scriptsContainer := [loadingParagraph] }

/-- What can happen to the page after `init`. -/
inductive Event where
  | navigate (target : ViewId)
  | searchInput (value : String)
  | languageChange (lang : String)
  | scriptsSettled (lang : String) (result : FetchResult ScriptDocument)
  | activitiesSettled (result : FetchResult ActivityDocument)
  | librarySettled (result : FetchResult LibraryDocument)
  | headerClick (view : ViewId) (index : Nat)
  | noteSubmit (text : String)
  | deleteClick (index : Int)
  | voicesChanged (voices : List Voice)
  | speak (engineVoices : List Voice) (text lang : String)

/-- The state after one event. -/
def step (B : Browser) (s : AppState) : Event → AppState
  | Event.navigate target => onNavigate target s
  | Event.searchInput value => onSearchInput B value s
  | Event.languageChange lang => onLanguageChange lang s
  | Event.scriptsSettled lang result =>
    { s with scriptsContainer := fetchScripts s.currentLang lang result s.scriptsContainer }
  | Event.activitiesSettled result =>
    { s with activitiesContainer := fetchActivities result s.activitiesContainer }
  | Event.librarySettled result =>
    { s with libraryContainer := fetchLibrary result s.libraryContainer }
  | Event.headerClick view index => s.setContainer view (toggleAt index (s.container view))
  | Event.noteSubmit text => { s with notes := (addNote text s.notes).1 }
  | Event.deleteClick index => { s with notes := (deleteNote index s.notes).1 }
  | Event.voicesChanged voices => { s with speech := { s.speech with availableVoices := voices } }
  | Event.speak engineVoices text lang =>
    { s with speech := (speakText engineVoices text lang s.speech).1 }

/-- The state `init()` leaves before any request settles: empty containers apart
from the loading placeholder, and the notes rendered from the store. -/
def initState (engineVoices : List Voice) (stored : Option String) : AppState :=
  { currentLang := "en"
    currentView := ViewId.scripts
    speech := { availableVoices := engineVoices, queue := [] }
    scriptsContainer := [loadingParagraph]
    activitiesContainer := []
    libraryContainer := []
    notes := (loadUserNotes { localStorage := stored, notesContainer := [], noteInput := "" }).1
    searchValue := "" }

/-- The states the page can be in. -/
inductive Reachable (B : Browser) : AppState → Prop where
  | init (engineVoices : List Voice) (stored : Option String) :
    Reachable B (initState engineVoices stored)
  | step {s : AppState} (e : Event) : Reachable B s → Reachable B (step B s e)

/-- All cards below a `.module-content`, in document order. -/
def contentCards : List ContentItem → List Card
  | [] => []
  | ContentItem.card c :: rest => c :: contentCards rest
  | _ :: rest => contentCards rest

/-- All cards below a container, in document order. -/
def cardsOf : Container → List Card
  | [] => []
  | ViewItem.accordion a :: rest => contentCards a.content ++ cardsOf rest
  | ViewItem.card c :: rest => c :: cardsOf rest
  | _ :: rest => cardsOf rest

/-- The accordions among the children of a container, in document order. -/
def accordionsOf : Container → List Accordion
  | [] => []
  | ViewItem.accordion a :: rest => a :: accordionsOf rest
  | _ :: rest => accordionsOf rest

/-- A card is visible unless its inline display is `none`. -/
def Card.visible (c : Card) : Bool :=
  c.display != Display.none

/-- The open or closed state of every accordion of a container, in document order. -/
def openStates (c : Container) : List Bool :=
  (accordionsOf c).map (fun a => a.isOpen)

/-- A concrete `toLowerCase` and `innerText` for evaluating examples: ASCII lower
casing, and the text of the card followed by the labels of its buttons. -/
def exampleBrowser : Browser where
  toLowerCase := fun s => ⟨s.data.map Char.toLower⟩
  innerText := fun card =>
    let bodyText :=
      match card.body with
      | CardBody.cardText text => text
      | CardBody.warning item => "⚠️ " ++ item
      | CardBody.playlist title artist usage => "🎵 " ++ title ++ artist ++ " - " ++ usage
      | CardBody.routine title steps => title ++ String.join steps
      | CardBody.instruction name description cue => name ++ description ++ "🗣️ " ++ cue
      | CardBody.libraryPair en ar => en ++ ar
    bodyText ++ String.join (card.actions.map (fun b => b.label))
  toLowerCase_empty := rfl

/-! ## Example inputs -/

/-- An activities document with one category, one section and two string items. -/
def exampleActivities : ActivityDocument :=
  { categories := some
      [{ icon := some "🏐"
         title := "Pool games"
         bpm_range := some "120-130"
         description := none
         sections := some
           [{ title := "Safety"
              type := none
              items := some [Item.str "Warm up first", Item.str "Drink water"] }] }] }

/-- The page after `activities.json` arrived with `exampleActivities` and the user
opened the activities view. -/
def exampleActivitiesState : AppState :=
  step exampleBrowser
    (step exampleBrowser (initState [] none)
      (Event.activitiesSettled (FetchResult.response true (some exampleActivities))))
    (Event.navigate ViewId.activities)

/-- A scripts document with one module, one category and two phrases. -/
def exampleScripts : ScriptDocument :=
  { modules := some
      [{ id := some "m1"
         title := "Welcome"
         categories := some [{ title := "Greetings", phrases := some ["Buongiorno", "Benvenuti"] }] }] }

/-- The page after the scripts arrived with `exampleScripts` and the user typed `zz`
into the search box. -/
def exampleScriptsState : AppState :=
  step exampleBrowser
    (step exampleBrowser (initState [] none)
      (Event.scriptsSettled "en" (FetchResult.response true (some exampleScripts))))
    (Event.searchInput "zz")

/-- The notes state of a fresh page: nothing stored, nothing shown, nothing typed. -/
def emptyNotes : NotesState :=
  { localStorage := none, notesContainer := [], noteInput := "" }

/-! ## What the specification says about notes -/

/-- A text is blank when it is empty or holds nothing but white space. -/
def isBlank (text : String) : Bool :=
  text.data.all isTrimmed

/-- The card the specification gives the note at position `index`, for the language
`lang` of its speak action. -/
def expectedNoteCard (lang : String) (index : Nat) (note : String) : Card :=
  { className := ["card", "phrase-card"]
    display := Display.unset
    body := CardBody.cardText note
    actions :=
      [{ className := ["icon-btn", "speak-btn"], label := "🔊", onclick := Action.speak note lang },
       { className := ["icon-btn", "copy-btn"], label := "📋", onclick := Action.copy note },
       { className := ["delete-btn"], label := "🗑️", onclick := Action.delete index }] }

/-! ## What the specification says about the scripts view -/

/-- A scripts document is well formed when it has modules, every module has
categories and every category has phrases. -/
def ScriptDocument.wellFormed (d : ScriptDocument) : Bool :=
  match d.modules with
  | none => false
  | some modules =>
    modules.all (fun m =>
      match m.categories with
      | none => false
      | some categories => categories.all (fun c => c.phrases.isSome))

/-- The body the specification gives the accordion of a module: for each category
its title, followed by one card per phrase, all in source order. -/
def expectedBody (currentLang : String) (m : Module) : List ContentItem :=
  (m.categories.getD []).flatMap (fun cat =>
    ContentItem.categoryTitle cat.title ::
      (cat.phrases.getD []).map (fun phrase => ContentItem.card (createCard phrase true currentLang)))

/-- The scripts view the specification describes: one closed accordion per module,
in source order. -/
def expectedScriptsView (currentLang : String) (modules : List Module) : Container :=
  modules.map (fun m =>
    ViewItem.accordion
      { id := if truthy m.id then m.id else none
        headerHtml := m.title
        isOpen := false
        content := expectedBody currentLang m })

/-! ## What the specification says about voice resolution -/

/-- The fixed table of the specification: the locale tag of a language code, with
`en-US` for every code outside the table. -/
def localeTag (code : String) : String :=
  if code = "en" then "en-US"
  else if code = "it" then "it-IT"
  else if code = "de" then "de-DE"
  else if code = "es" then "es-ES"
  else if code = "ru" then "ru-RU"
  else "en-US"

/-- The voice the specification resolves: the first voice whose `lang` is the locale
tag; failing that, the first voice whose `lang` starts with the two-letter subtag of
the locale tag; failing that, none. -/
def resolveVoice (code : String) (voices : List Voice) : Option Voice :=
  let tag := localeTag code
  match voices.find? (fun v => v.lang = tag) with
  | some v => some v
  | none => voices.find? (fun v => (tag.data.take 2).isPrefixOf v.lang.data)

/-- The voice list `speakText` searches: the cached list, or the list of the engine
when the cache is empty. -/
def voicesInUse (engineVoices : List Voice) (s : SpeechState) : List Voice :=
  if s.availableVoices.length = 0 then engineVoices else s.availableVoices

/-! ## What the specification says about the search filter -/

/-- The visibility rule of the specification: the query the handler works with (the
lower-cased input) is contained in the lower-cased flattened text of the card. -/
def cardMatches (B : Browser) (query : String) (card : Card) : Bool :=
  includes (B.toLowerCase (B.innerText card)) query

/-- What the search handler does to one card of the active view. -/
def filterCard (B : Browser) (query : String) (card : Card) : Card :=
  if matchesSelector card then (searchCardStep B query card).1 else card

/-- Only cards the search selector reaches are ever hidden. -/
def hiddenOnlyIfSelected (c : Container) : Prop :=
  ∀ card ∈ cardsOf c, card.display = Display.none → matchesSelector card = true

/-- The invariant of the page: in every view, a hidden card is one the search
selector reaches. -/
def AppState.invariant (s : AppState) : Prop :=
  ∀ v, hiddenOnlyIfSelected (s.container v)

/-- Every card below the `.module-content` satisfies `P`. -/
def contentAll (P : Card → Prop) (items : List ContentItem) : Prop :=
  ∀ card ∈ contentCards items, P card

/-- Every card below the container satisfies `P`. -/
def containerAll (P : Card → Prop) (c : Container) : Prop :=
  ∀ card ∈ cardsOf c, P card

/-- The card has no inline display. -/
@[reducible] def unsetDisplay (card : Card) : Prop :=
  card.display = Display.unset

/-- The card has no inline display and the search selector reaches it. -/
@[reducible] def phraseCard (card : Card) : Prop :=
  card.display = Display.unset ∧ matchesSelector card = true

/-- The search selector reaches every card below the container. -/
def allSelected (c : Container) : Prop :=
  containerAll (fun card => matchesSelector card = true) c

/-- In the scripts, library and notes views the search selector reaches every card. -/
def AppState.phraseViewsSelected (s : AppState) : Prop :=
  ∀ v, v ≠ ViewId.activities → allSelected (s.container v)

/-- The card has no inline display and the search selector does not reach it. -/
@[reducible] def plainCard (card : Card) : Prop :=
  card.display = Display.unset ∧ matchesSelector card = false

/-! # Properties -/

/-! ## Loops that only append -/

theorem forEach_append {α β : Type} (xs : List α) (body : α → List β → List β × Outcome)
    (f : α → List β) (h : ∀ x ∈ xs, ∀ s, body x s = (s ++ f x, Outcome.normal)) (s : List β) :
    forEach xs body s = (s ++ xs.flatMap f, Outcome.normal) := by
  induction xs generalizing s with
  | nil => simp [forEach]
  | cons x rest ih =>
    have hx := h x (List.mem_cons_self x rest) s
    have hrest : ∀ y ∈ rest, ∀ s, body y s = (s ++ f y, Outcome.normal) :=
      fun y hy => h y (List.mem_cons_of_mem x hy)
    simp only [forEach, hx, ih hrest, List.flatMap_cons, List.append_assoc]

theorem flatMap_singleton_eq_map {α β : Type} (f : α → β) (xs : List α) :
    xs.flatMap (fun x => [f x]) = xs.map f := by
  induction xs with
  | nil => rfl
  | cons x rest ih => simp [List.flatMap_cons, ih]

theorem accordionsOf_map_accordion {α : Type} (f : α → Accordion) (xs : List α) :
    accordionsOf (xs.map (fun x => ViewItem.accordion (f x))) = xs.map f := by
  induction xs with
  | nil => rfl
  | cons x rest ih => simp [accordionsOf, ih]

theorem scriptCategoryStep_append (currentLang : String) (cat : Category)
    (h : cat.phrases.isSome = true) (content : List ContentItem) :
    scriptCategoryStep currentLang cat content =
      (content ++ (ContentItem.categoryTitle cat.title ::
        (cat.phrases.getD []).map (fun phrase => ContentItem.card (createCard phrase true currentLang))),
       Outcome.normal) := by
  obtain ⟨phrases, hp⟩ := Option.isSome_iff_exists.mp h
  have hloop := forEach_append phrases (scriptPhraseStep currentLang)
    (fun phrase => [ContentItem.card (createCard phrase true currentLang)])
    (fun x _ s => by simp [scriptPhraseStep, appendChild])
    (content ++ [ContentItem.categoryTitle cat.title])
  simp only [scriptCategoryStep, forEachOpt, hp, appendChild, hloop, Option.getD_some,
    flatMap_singleton_eq_map]
  simp

theorem scriptModuleStep_append (currentLang : String) (m : Module) (categories : List Category)
    (hc : m.categories = some categories)
    (h : categories.all (fun c => c.phrases.isSome) = true) (container : Container) :
    scriptModuleStep currentLang m container =
      (container ++ [ViewItem.accordion
        { id := if truthy m.id then m.id else none
          headerHtml := m.title
          isOpen := false
          content := expectedBody currentLang m }], Outcome.normal) := by
  have hloop := forEach_append categories (scriptCategoryStep currentLang)
    (fun cat => ContentItem.categoryTitle cat.title ::
      (cat.phrases.getD []).map (fun phrase => ContentItem.card (createCard phrase true currentLang)))
    (fun cat hcat s =>
      scriptCategoryStep_append currentLang cat (by simpa using (List.all_eq_true.mp h) cat hcat) s)
    []
  simp only [scriptModuleStep, forEachOpt, hc, createAccordion, hloop, appendChild, expectedBody,
    Option.getD_some, List.nil_append]

/-- C1. For every well-formed scripts document and whatever the scripts view held
before, `renderScripts` ends normally and leaves exactly the view of the
specification: one accordion per module in source order, whose body lists for each
category its title followed by one card per phrase, in source order. -/
theorem renderScripts_wellFormed (currentLang : String) (d : ScriptDocument)
    (previous : Container) (h : d.wellFormed = true) :
    ∃ modules, d.modules = some modules ∧
      renderScripts currentLang d.modules previous =
        (expectedScriptsView currentLang modules, Outcome.normal) ∧
      (renderScripts currentLang d.modules previous).1.length = modules.length ∧
      accordionsOf (renderScripts currentLang d.modules previous).1 =
        modules.map (fun m =>
          { id := if truthy m.id then m.id else none
            headerHtml := m.title
            isOpen := false
            content := expectedBody currentLang m }) := by
  unfold ScriptDocument.wellFormed at h
  cases hm : d.modules with
  | none => simp [hm] at h
  | some modules =>
    rw [hm] at h
    have hall := List.all_eq_true.mp h
    have hloop := forEach_append modules (scriptModuleStep currentLang)
      (fun m => [ViewItem.accordion
        { id := if truthy m.id then m.id else none
          headerHtml := m.title
          isOpen := false
          content := expectedBody currentLang m }])
      (fun m hmem s => by
        have hm' := hall m hmem
        cases hcat : m.categories with
        | none => simp [hcat] at hm'
        | some categories =>
          rw [hcat] at hm'
          exact scriptModuleStep_append currentLang m categories hcat hm' s)
      []
    have hrender : renderScripts currentLang (some modules) previous =
        (expectedScriptsView currentLang modules, Outcome.normal) := by
      simp only [renderScripts, forEachOpt, hloop, expectedScriptsView, List.nil_append,
        flatMap_singleton_eq_map]
    refine ⟨modules, rfl, hrender, ?_, ?_⟩
    · simp [hrender, expectedScriptsView]
    · rw [hrender]
      exact accordionsOf_map_accordion _ modules

/-- The witness of C1: the example document rendered for `it` over a view that held
the loading placeholder. -/
theorem renderScripts_wellFormed_witness :
    exampleScripts.wellFormed = true ∧
    (∃ modules, exampleScripts.modules = some modules ∧
      renderScripts "it" exampleScripts.modules [loadingParagraph] =
        (expectedScriptsView "it" modules, Outcome.normal) ∧
      (renderScripts "it" exampleScripts.modules [loadingParagraph]).1.length = modules.length ∧
      accordionsOf (renderScripts "it" exampleScripts.modules [loadingParagraph]).1 =
        modules.map (fun m =>
          { id := if truthy m.id then m.id else none
            headerHtml := m.title
            isOpen := false
            content := expectedBody "it" m })) ∧
    (renderScripts "it" exampleScripts.modules [loadingParagraph]).1 =
      [ViewItem.accordion
        { id := some "m1"
          headerHtml := "Welcome"
          isOpen := false
          content :=
            [ContentItem.categoryTitle "Greetings",
             ContentItem.card (createCard "Buongiorno" true "it"),
             ContentItem.card (createCard "Benvenuti" true "it")] }] :=
  ⟨by decide, renderScripts_wellFormed "it" exampleScripts [loadingParagraph] (by decide),
    by decide⟩

/-! ## Voice resolution -/

/-- No two-letter code names a property inherited from `Object.prototype`. -/
theorem twoLetter_not_inherited (lang : String) (h : lang.length = 2) :
    lang ∉ objectPrototypeKeys := by
  intro hmem
  simp only [objectPrototypeKeys, List.mem_cons, List.mem_singleton, List.not_mem_nil,
    or_false] at hmem
  rcases hmem with rfl | rfl | rfl | rfl | rfl | rfl | rfl | rfl | rfl | rfl | rfl | rfl <;>
    exact absurd h (by decide)

theorem TTS_CODES_get_of_not_inherited (lang : String) (h : lang ∉ objectPrototypeKeys) :
    TTS_CODES_get lang = PropertyValue.string (localeTag lang) ∨
      (TTS_CODES_get lang = PropertyValue.undefined ∧ localeTag lang = "en-US") := by
  unfold TTS_CODES_get localeTag TTS_CODES
  by_cases h1 : lang = "en"
  · subst h1; left; rfl
  by_cases h2 : lang = "it"
  · subst h2; left; rfl
  by_cases h3 : lang = "de"
  · subst h3; left; rfl
  by_cases h4 : lang = "es"
  · subst h4; left; rfl
  by_cases h5 : lang = "ru"
  · subst h5; left; rfl
  right
  have e1 : (lang == "en") = false := by simpa using h1
  have e2 : (lang == "it") = false := by simpa using h2
  have e3 : (lang == "de") = false := by simpa using h3
  have e4 : (lang == "es") = false := by simpa using h4
  have e5 : (lang == "ru") = false := by simpa using h5
  simp [List.lookup, e1, e2, e3, e4, e5, h1, h2, h3, h4, h5, h]

theorem splitHead_localeTag (lang : String) :
    (splitHead (localeTag lang) '-').data = (localeTag lang).data.take 2 := by
  unfold localeTag
  split_ifs <;> rfl

/-- C2. For every language code that is not the name of a property inherited from
`Object.prototype` (so for every two-letter code), `speakText` ends normally, cancels
what was queued and speaks one utterance whose language is the locale tag of the
fixed table and whose voice is the one the specification resolves among the voices
in use: the first exact match, else the first match on the two-letter subtag, else
no voice. -/
theorem speakText_resolves (engineVoices : List Voice) (text lang : String) (s : SpeechState)
    (h : lang ∉ objectPrototypeKeys) :
    speakText engineVoices text lang s =
      ({ availableVoices := voicesInUse engineVoices s
         queue := [{ text := text, lang := localeTag lang, rate := 9,
                     voice := resolveVoice lang (voicesInUse engineVoices s) }] },
       Outcome.normal) := by
  have hsplit := splitHead_localeTag lang
  have hstarts : ∀ v : Voice, startsWith v.lang (splitHead (localeTag lang) '-') =
      ((localeTag lang).data.take 2).isPrefixOf v.lang.data := by
    intro v; simp [startsWith, hsplit]
  rcases TTS_CODES_get_of_not_inherited lang h with hget | ⟨hget, htag⟩
  · simp only [speakText, hget, voicesInUse, resolveVoice, hstarts]
    split_ifs <;> simp
  · have hdefault : ∀ v : Voice, startsWith v.lang (splitHead "en-US" '-') =
        ['e', 'n'].isPrefixOf v.lang.data := fun v => rfl
    simp only [speakText, hget, voicesInUse, resolveVoice, htag, hdefault]
    split_ifs <;> simp

/-- The three examples of the specification for code `it`: voices `[it-IT, en-US]`
give the `it-IT` voice, voices `[it-CH]` give the `it-CH` voice by the subtag, and no
voices at all give an utterance without a voice and no exception. -/
theorem speakText_resolves_witness :
    "it" ∉ objectPrototypeKeys ∧
    speakText [] "ciao" "it"
        { availableVoices := [⟨"Alice", "it-IT"⟩, ⟨"Samantha", "en-US"⟩], queue := [] } =
      ({ availableVoices := [⟨"Alice", "it-IT"⟩, ⟨"Samantha", "en-US"⟩]
         queue := [{ text := "ciao", lang := "it-IT", rate := 9, voice := some ⟨"Alice", "it-IT"⟩ }] },
       Outcome.normal) ∧
    speakText [⟨"Lia", "it-CH"⟩] "ciao" "it" { availableVoices := [], queue := [] } =
      ({ availableVoices := [⟨"Lia", "it-CH"⟩]
         queue := [{ text := "ciao", lang := "it-IT", rate := 9, voice := some ⟨"Lia", "it-CH"⟩ }] },
       Outcome.normal) ∧
    speakText [] "ciao" "it" { availableVoices := [], queue := [] } =
      ({ availableVoices := []
         queue := [{ text := "ciao", lang := "it-IT", rate := 9, voice := none }] },
       Outcome.normal) :=
  ⟨by decide,
   (speakText_resolves [] "ciao" "it" _ (by decide)).trans (by decide),
   (speakText_resolves [⟨"Lia", "it-CH"⟩] "ciao" "it" _ (by decide)).trans (by decide),
   (speakText_resolves [] "ciao" "it" _ (by decide)).trans (by decide)⟩

/-- A code that names an inherited property, such as `constructor`, is outside the
table and is not replaced by `en-US`: the property access yields a function, and
`speakText` raises before anything is spoken. -/
theorem speakText_inherited_key :
    speakText [] "ciao" "constructor" { availableVoices := [], queue := [] } =
      ({ availableVoices := [], queue := [] },
       Outcome.thrown (JSError.typeError "targetLangCode.split")) := by
  decide

/-! ## The search filter on the tree -/

theorem contentCards_append (a b : List ContentItem) :
    contentCards (a ++ b) = contentCards a ++ contentCards b := by
  induction a with
  | nil => rfl
  | cons x rest ih => cases x <;> simp [contentCards, ih]

theorem cardsOf_append (a b : Container) : cardsOf (a ++ b) = cardsOf a ++ cardsOf b := by
  induction a with
  | nil => rfl
  | cons x rest ih => cases x <;> simp [cardsOf, ih]

theorem accordionsOf_append (a b : Container) :
    accordionsOf (a ++ b) = accordionsOf a ++ accordionsOf b := by
  induction a with
  | nil => rfl
  | cons x rest ih => cases x <;> simp [accordionsOf, ih]

theorem contentCards_searchContent (B : Browser) (query : String) (items : List ContentItem)
    (isOpen : Bool) :
    contentCards (searchContent B query items isOpen).1 =
      (contentCards items).map (filterCard B query) := by
  induction items generalizing isOpen with
  | nil => rfl
  | cons x rest ih =>
    cases x with
    | categoryTitle t => simp [searchContent, contentCards, ih]
    | desc t => simp [searchContent, contentCards, ih]
    | card c =>
      by_cases hsel : matchesSelector c = true
      · simp [searchContent, contentCards, hsel, filterCard, ih]
      · simp [searchContent, contentCards, hsel, filterCard, ih]

theorem searchContent_open (B : Browser) (query : String) (items : List ContentItem)
    (isOpen : Bool) :
    (searchContent B query items isOpen).2 =
      (isOpen || (decide (utf16Length query > 1) &&
        (contentCards items).any (fun c => matchesSelector c && cardMatches B query c))) := by
  induction items generalizing isOpen with
  | nil => simp [searchContent, contentCards]
  | cons x rest ih =>
    cases x with
    | categoryTitle t => simp [searchContent, contentCards, ih]
    | desc t => simp [searchContent, contentCards, ih]
    | card c =>
      by_cases hsel : matchesSelector c = true
      · by_cases hm : cardMatches B query c = true
        · have hm' : includes (B.toLowerCase (B.innerText c)) query = true := hm
          simp only [searchContent, hsel, if_true, ih, contentCards, searchCardStep, hm',
            List.any_cons, hm, Bool.and_self, Bool.true_or, Bool.and_true]
          cases isOpen <;> cases decide (utf16Length query > 1) <;> simp
        · have hm' : includes (B.toLowerCase (B.innerText c)) query = false := by
            simpa [cardMatches] using hm
          have hm2 : cardMatches B query c = false := by simpa using hm
          simp [searchContent, hsel, ih, contentCards, searchCardStep, hm', hm2]
      · have hsel' : matchesSelector c = false := by simpa using hsel
        simp [searchContent, hsel', ih, contentCards]

theorem cardsOf_searchContainer (B : Browser) (query : String) (c : Container) :
    cardsOf (searchContainer B query c) = (cardsOf c).map (filterCard B query) := by
  induction c with
  | nil => rfl
  | cons x rest ih =>
    cases x with
    | accordion a => simp [searchContainer, cardsOf, ih, contentCards_searchContent]
    | card c =>
      by_cases hsel : matchesSelector c = true
      · simp [searchContainer, cardsOf, ih, hsel, filterCard]
      · simp [searchContainer, cardsOf, ih, hsel, filterCard]
    | paragraph st t => simp [searchContainer, cardsOf, ih]

theorem accordionsOf_searchContainer (B : Browser) (query : String) (c : Container) :
    accordionsOf (searchContainer B query c) =
      (accordionsOf c).map (fun a =>
        { a with
          content := (searchContent B query a.content a.isOpen).1
          isOpen := (a.isOpen || (decide (utf16Length query > 1) &&
            (contentCards a.content).any (fun c => matchesSelector c && cardMatches B query c))) }) := by
  induction c with
  | nil => rfl
  | cons x rest ih =>
    cases x with
    | accordion a => simp [searchContainer, accordionsOf, ih, searchContent_open]
    | card c =>
      by_cases hsel : matchesSelector c = true
      · simp [searchContainer, accordionsOf, ih, hsel]
      · simp [searchContainer, accordionsOf, ih, hsel]
    | paragraph st t => simp [searchContainer, accordionsOf, ih]

/-- A card the selector reaches is visible after the filter exactly when it matches. -/
theorem filterCard_visible_iff (B : Browser) (query : String) (card : Card)
    (hsel : matchesSelector card = true) :
    (filterCard B query card).visible = cardMatches B query card := by
  by_cases hm : includes (B.toLowerCase (B.innerText card)) query = true
  · simp [filterCard, hsel, searchCardStep, cardMatches, hm, Card.visible]
  · have hm' : includes (B.toLowerCase (B.innerText card)) query = false := by simpa using hm
    simp [filterCard, hsel, searchCardStep, cardMatches, hm', Card.visible]

/-- A card the selector does not reach is left as it is. -/
theorem filterCard_of_not_selected (B : Browser) (query : String) (card : Card)
    (hsel : matchesSelector card = false) : filterCard B query card = card := by
  simp [filterCard, hsel]

theorem includes_empty (text : String) : includes text "" = true := by
  unfold includes includesList
  cases h : text.data with
  | nil => simp
  | cons c rest => simp

/-! ## Freshly rendered cards have no inline display -/

theorem forEach_preserves {α σ : Type} (P : σ → Prop) (xs : List α)
    (body : α → σ → σ × Outcome) (hbody : ∀ x s, P s → P (body x s).1) (s : σ) (hs : P s) :
    P (forEach xs body s).1 := by
  induction xs generalizing s with
  | nil => simpa [forEach] using hs
  | cons x rest ih =>
    have hx := hbody x s hs
    unfold forEach
    cases hb : body x s with
    | mk s' o =>
      rw [hb] at hx
      cases o with
      | normal => exact ih s' hx
      | thrown e => exact hx

theorem forEachOpt_preserves {α σ : Type} (P : σ → Prop) (what : String) (xs : Option (List α))
    (body : α → σ → σ × Outcome) (hbody : ∀ x s, P s → P (body x s).1) (s : σ) (hs : P s) :
    P (forEachOpt what xs body s).1 := by
  cases xs with
  | none => simpa [forEachOpt] using hs
  | some l => exact forEach_preserves P l body hbody s hs

theorem contentAll_nil {P : Card → Prop} : contentAll P [] := by
  intro card h; simp [contentCards] at h

theorem containerAll_nil {P : Card → Prop} : containerAll P [] := by
  intro card h; simp [cardsOf] at h

theorem containerAll_mono {P Q : Card → Prop} (c : Container) (hPQ : ∀ card, P card → Q card)
    (h : containerAll P c) : containerAll Q c :=
  fun card hmem => hPQ card (h card hmem)

theorem contentAll_append_card {P : Card → Prop} (items : List ContentItem) (c : Card)
    (h : contentAll P items) (hc : P c) :
    contentAll P (items ++ [ContentItem.card c]) := by
  intro card hmem
  rw [contentCards_append] at hmem
  simp only [contentCards, List.mem_append, List.mem_singleton] at hmem
  rcases hmem with hmem | hmem
  · exact h card hmem
  · rw [hmem]; exact hc

theorem contentAll_append_title {P : Card → Prop} (items : List ContentItem) (t : String)
    (h : contentAll P items) : contentAll P (items ++ [ContentItem.categoryTitle t]) := by
  intro card hmem
  rw [contentCards_append] at hmem
  simp only [contentCards, List.append_nil] at hmem
  exact h card hmem

theorem contentAll_append_desc {P : Card → Prop} (items : List ContentItem) (t : String)
    (h : contentAll P items) : contentAll P (items ++ [ContentItem.desc t]) := by
  intro card hmem
  rw [contentCards_append] at hmem
  simp only [contentCards, List.append_nil] at hmem
  exact h card hmem

theorem containerAll_append_accordion {P : Card → Prop} (c : Container) (a : Accordion)
    (h : containerAll P c) (ha : contentAll P a.content) :
    containerAll P (c ++ [ViewItem.accordion a]) := by
  intro card hmem
  rw [cardsOf_append] at hmem
  simp only [cardsOf, List.append_nil, List.mem_append] at hmem
  rcases hmem with hmem | hmem
  · exact h card hmem
  · exact ha card hmem

theorem containerAll_append_card {P : Card → Prop} (c : Container) (card : Card)
    (h : containerAll P c) (hc : P card) :
    containerAll P (c ++ [ViewItem.card card]) := by
  intro x hmem
  rw [cardsOf_append] at hmem
  simp only [cardsOf, List.mem_append, List.mem_singleton] at hmem
  rcases hmem with hmem | hmem
  · exact h x hmem
  · rw [hmem]; exact hc

theorem scriptCategoryStep_phrase (currentLang : String) (cat : Category)
    (content : List ContentItem) (h : contentAll phraseCard content) :
    contentAll phraseCard (scriptCategoryStep currentLang cat content).1 := by
  unfold scriptCategoryStep
  apply forEachOpt_preserves (contentAll phraseCard)
  · intro phrase s hs
    exact contentAll_append_card s _ hs ⟨rfl, rfl⟩
  · exact contentAll_append_title content _ h

theorem scriptModuleStep_phrase (currentLang : String) (m : Module) (container : Container)
    (h : containerAll phraseCard container) : containerAll phraseCard (scriptModuleStep currentLang m container).1 := by
  have hcontent : contentAll phraseCard
      (forEachOpt "mod.categories" m.categories (scriptCategoryStep currentLang)
        (createAccordion m.title m.id).content).1 :=
    forEachOpt_preserves (contentAll phraseCard) _ _ _
      (fun cat s hs => scriptCategoryStep_phrase currentLang cat s hs) _ contentAll_nil
  cases hres : forEachOpt "mod.categories" m.categories (scriptCategoryStep currentLang)
      (createAccordion m.title m.id).content with
  | mk content o =>
    rw [hres] at hcontent
    cases o with
    | normal =>
      simp only [scriptModuleStep, hres, appendChild]
      exact containerAll_append_accordion container _ h hcontent
    | thrown e =>
      simp only [scriptModuleStep, hres]
      exact h

theorem renderScripts_phrase (currentLang : String) (modules : Option (List Module))
    (previous : Container) : containerAll phraseCard (renderScripts currentLang modules previous).1 := by
  unfold renderScripts
  exact forEachOpt_preserves (containerAll phraseCard) _ _ _
    (fun m s hs => scriptModuleStep_phrase currentLang m s hs) _ containerAll_nil

theorem activityCard_plain (sectionType : Option String) (item : Item) (card : Card)
    (h : activityCard sectionType item = Except.ok card) : plainCard card := by
  unfold activityCard at h
  cases item with
  | str s => simp only [Except.ok.injEq] at h; rw [← h]; exact ⟨rfl, rfl⟩
  | obj o =>
    simp only at h
    split_ifs at h
    · simp only [Except.ok.injEq] at h; rw [← h]; exact ⟨rfl, rfl⟩
    · cases hsteps : o.steps with
      | none => simp [hsteps] at h
      | some steps => simp only [hsteps, Except.ok.injEq] at h; rw [← h]; exact ⟨rfl, rfl⟩
    · simp only [Except.ok.injEq] at h; rw [← h]; exact ⟨rfl, rfl⟩

theorem activitySectionStep_plain (sec : Section) (content : List ContentItem)
    (h : contentAll plainCard content) : contentAll plainCard (activitySectionStep sec content).1 := by
  unfold activitySectionStep
  have htitle := contentAll_append_title content sec.title h
  cases hitems : sec.items with
  | none => exact htitle
  | some items =>
    apply forEach_preserves (contentAll plainCard)
    · intro item s hs
      unfold activityItemStep
      cases hcard : activityCard sec.type item with
      | error e => exact hs
      | ok card => exact contentAll_append_card s card hs (activityCard_plain _ _ _ hcard)
    · exact htitle

theorem activityCategoryStep_plain (cat : ActivityCategory) (container : Container)
    (h : containerAll plainCard container) :
    containerAll plainCard (activityCategoryStep cat container).1 := by
  have hstart : contentAll plainCard
      (if truthy cat.description then
        (createAccordion (activityHeader cat) none).content ++ [ContentItem.desc (orEmpty cat.description)]
       else (createAccordion (activityHeader cat) none).content) := by
    split_ifs
    · exact contentAll_append_desc _ _ contentAll_nil
    · exact contentAll_nil
  cases hsec : cat.sections with
  | none =>
    simp only [activityCategoryStep, hsec, appendChild]
    exact containerAll_append_accordion container _ h hstart
  | some sections =>
    have hloop := forEach_preserves (contentAll plainCard) sections activitySectionStep
      (fun sec s hs => activitySectionStep_plain sec s hs) _ hstart
    cases hres : forEach sections activitySectionStep
        (if truthy cat.description then
          (createAccordion (activityHeader cat) none).content ++ [ContentItem.desc (orEmpty cat.description)]
         else (createAccordion (activityHeader cat) none).content) with
    | mk content o =>
      rw [hres] at hloop
      cases o with
      | normal =>
        simp only [activityCategoryStep, hsec, hres, appendChild]
        exact containerAll_append_accordion container _ h hloop
      | thrown e =>
        simp only [activityCategoryStep, hsec, hres]
        exact h

/-- Every card `renderActivities` builds has no inline display and is out of reach of
the search selector. -/
theorem renderActivities_plain (data : ActivityDocument) (previous : Container) :
    containerAll plainCard (renderActivities data previous).1 := by
  unfold renderActivities
  cases hcat : data.categories with
  | none => exact containerAll_nil
  | some categories =>
    exact forEach_preserves (containerAll plainCard) _ _
      (fun cat s hs => activityCategoryStep_plain cat s hs) _ containerAll_nil

theorem renderActivities_unset (data : ActivityDocument) (previous : Container) :
    containerAll unsetDisplay (renderActivities data previous).1 :=
  containerAll_mono _ (fun _ h => h.1) (renderActivities_plain data previous)

theorem libraryTopicStep_phrase (topic : Topic) (content : List ContentItem)
    (h : contentAll phraseCard content) : contentAll phraseCard (libraryTopicStep topic content).1 := by
  unfold libraryTopicStep
  have htitle := contentAll_append_title content topic.title h
  cases hp : topic.phrases with
  | none => exact htitle
  | some phrases =>
    apply forEach_preserves (contentAll phraseCard)
    · intro pair s hs
      exact contentAll_append_card s _ hs ⟨rfl, rfl⟩
    · exact htitle

theorem libraryChapterStep_phrase (chap : Chapter) (container : Container)
    (h : containerAll phraseCard container) : containerAll phraseCard (libraryChapterStep chap container).1 := by
  cases ht : chap.topics with
  | none =>
    simp only [libraryChapterStep, ht, appendChild]
    exact containerAll_append_accordion container _ h contentAll_nil
  | some topics =>
    have hloop := forEach_preserves (contentAll phraseCard) topics libraryTopicStep
      (fun t s hs => libraryTopicStep_phrase t s hs) (createAccordion chap.title chap.id).content
      contentAll_nil
    cases hres : forEach topics libraryTopicStep (createAccordion chap.title chap.id).content with
    | mk content o =>
      rw [hres] at hloop
      cases o with
      | normal =>
        simp only [libraryChapterStep, ht, hres, appendChild]
        exact containerAll_append_accordion container _ h hloop
      | thrown e =>
        simp only [libraryChapterStep, ht, hres]
        exact h

theorem renderLibrary_phrase (chapters : Option (List Chapter)) (previous : Container) :
    containerAll phraseCard (renderLibrary chapters previous).1 := by
  unfold renderLibrary
  exact forEachOpt_preserves (containerAll phraseCard) _ _ _
    (fun c s hs => libraryChapterStep_phrase c s hs) _ containerAll_nil

theorem renderNotes_phrase (notes : List String) (previous : Container) :
    containerAll phraseCard (renderNotes notes previous) := by
  unfold renderNotes
  apply forEach_preserves (containerAll phraseCard)
  · intro entry s hs
    exact containerAll_append_card s _ hs ⟨rfl, rfl⟩
  · exact containerAll_nil

theorem renderScripts_unset (currentLang : String) (modules : Option (List Module))
    (previous : Container) :
    containerAll unsetDisplay (renderScripts currentLang modules previous).1 :=
  containerAll_mono _ (fun _ h => h.1) (renderScripts_phrase currentLang modules previous)

theorem renderLibrary_unset (chapters : Option (List Chapter)) (previous : Container) :
    containerAll unsetDisplay (renderLibrary chapters previous).1 :=
  containerAll_mono _ (fun _ h => h.1) (renderLibrary_phrase chapters previous)

theorem renderNotes_unset (notes : List String) (previous : Container) :
    containerAll unsetDisplay (renderNotes notes previous) :=
  containerAll_mono _ (fun _ h => h.1) (renderNotes_phrase notes previous)

/-! ## The invariant of the page -/

theorem hiddenOnlyIfSelected_of_allUnset (c : Container) (h : containerAll unsetDisplay c) :
    hiddenOnlyIfSelected c := by
  intro card hmem hnone
  rw [h card hmem] at hnone
  cases hnone

theorem matchesSelector_filterCard (B : Browser) (query : String) (card : Card) :
    matchesSelector (filterCard B query card) = matchesSelector card := by
  unfold filterCard searchCardStep
  simp only
  split_ifs <;> rfl

theorem hiddenOnlyIfSelected_searchContainer (B : Browser) (query : String) (c : Container)
    (h : hiddenOnlyIfSelected c) : hiddenOnlyIfSelected (searchContainer B query c) := by
  intro card hmem hnone
  rw [cardsOf_searchContainer] at hmem
  obtain ⟨old, hold, rfl⟩ := List.mem_map.mp hmem
  rw [matchesSelector_filterCard]
  by_cases hsel : matchesSelector old = true
  · exact hsel
  · have hsel' : matchesSelector old = false := by simpa using hsel
    rw [filterCard_of_not_selected B query old hsel'] at hnone
    exact h old hold hnone

theorem cardsOf_toggleAt (index : Nat) (c : Container) : cardsOf (toggleAt index c) = cardsOf c := by
  unfold toggleAt
  induction c generalizing index with
  | nil => cases index <;> rfl
  | cons x rest ih =>
    cases index with
    | zero => cases x <;> simp [List.modify, List.modifyHead, List.modifyTailIdx, cardsOf]
    | succ n =>
      have := ih n
      cases x <;> simp_all [List.modify, List.modifyTailIdx, cardsOf]

theorem container_setContainer (s : AppState) (v w : ViewId) (c : Container) :
    (s.setContainer v c).container w = if w = v then c else s.container w := by
  cases v <;> cases w <;> simp [AppState.setContainer, AppState.container]

theorem currentView_setContainer (s : AppState) (v : ViewId) (c : Container) :
    (s.setContainer v c).currentView = s.currentView := by
  cases v <;> rfl

theorem container_onSearchInput (B : Browser) (value : String) (s : AppState) (w : ViewId) :
    (onSearchInput B value s).container w =
      if w = s.currentView then searchContainer B (B.toLowerCase value) (s.container w)
      else s.container w := by
  unfold onSearchInput
  simp only [container_setContainer, AppState.activeContainer]
  by_cases hw : w = s.currentView
  · subst hw
    cases hv : s.currentView <;> simp [AppState.container, hv]
  · simp only [hw, if_false]
    cases w <;> rfl

theorem invariant_initState (engineVoices : List Voice) (stored : Option String) :
    (initState engineVoices stored).invariant := by
  intro v
  apply hiddenOnlyIfSelected_of_allUnset
  cases v
  · intro card h; simp [initState, AppState.container, cardsOf, loadingParagraph] at h
  · exact containerAll_nil
  · exact containerAll_nil
  · show containerAll unsetDisplay (loadUserNotes { localStorage := stored, notesContainer := [], noteInput := "" }).1.notesContainer
    cases hparse : parseStoredOrEmpty stored with
    | error e => simp only [loadUserNotes, hparse]; exact containerAll_nil
    | ok notes => simp only [loadUserNotes, hparse]; exact renderNotes_unset notes _

theorem fetchScripts_phrase (currentLang lang : String) (result : FetchResult ScriptDocument)
    (previous : Container) :
    containerAll phraseCard (fetchScripts currentLang lang result previous) := by
  have herror : containerAll phraseCard [errorParagraph (scriptsUrl lang)] := by
    intro card h; simp [cardsOf, errorParagraph] at h
  unfold fetchScripts
  cases result with
  | rejected => exact herror
  | response ok json =>
    cases ok with
    | false => exact herror
    | true =>
      cases json with
      | none => exact herror
      | some data =>
        have hr := renderScripts_phrase currentLang data.modules [loadingParagraph]
        simp only [Bool.not_true, Bool.false_eq_true, if_false]
        cases hres : renderScripts currentLang data.modules [loadingParagraph] with
        | mk container o =>
          rw [hres] at hr
          cases o with
          | normal => exact hr
          | thrown e => exact herror

theorem fetchScripts_unset (currentLang lang : String) (result : FetchResult ScriptDocument)
    (previous : Container) :
    containerAll unsetDisplay (fetchScripts currentLang lang result previous) :=
  containerAll_mono _ (fun _ h => h.1) (fetchScripts_phrase currentLang lang result previous)

theorem fetchActivities_preserves (result : FetchResult ActivityDocument) (previous : Container)
    (h : hiddenOnlyIfSelected previous) : hiddenOnlyIfSelected (fetchActivities result previous) := by
  unfold fetchActivities
  cases result with
  | rejected => exact h
  | response ok json =>
    cases json with
    | none => exact h
    | some data => exact hiddenOnlyIfSelected_of_allUnset _ (renderActivities_unset data previous)

theorem fetchLibrary_preserves (Q : Container → Prop)
    (hQ : ∀ chapters previous, Q (renderLibrary chapters previous).1)
    (result : FetchResult LibraryDocument) (previous : Container)
    (h : Q previous) : Q (fetchLibrary result previous) := by
  unfold fetchLibrary
  cases result with
  | rejected => exact h
  | response ok json =>
    cases json with
    | none => exact h
    | some data => exact hQ data.chapters previous

theorem saveNote_preserves (Q : Container → Prop) (hQ : ∀ notes previous, Q (renderNotes notes previous))
    (text : String) (n : NotesState) (h : Q n.notesContainer) :
    Q (saveNote text n).1.notesContainer := by
  cases hparse : parseStoredOrEmpty n.localStorage with
  | error e => simp only [saveNote, hparse]; exact h
  | ok notes =>
    simp only [saveNote, hparse]
    exact hQ _ _

theorem addNote_preserves (Q : Container → Prop) (hQ : ∀ notes previous, Q (renderNotes notes previous))
    (text : String) (n : NotesState) (h : Q n.notesContainer) :
    Q (addNote text n).1.notesContainer := by
  unfold addNote onNoteSubmit
  simp only
  split_ifs
  · have hs := saveNote_preserves Q hQ (trim text) { n with noteInput := text } h
    cases hres : saveNote (trim text) { n with noteInput := text } with
    | mk n' o =>
      rw [hres] at hs
      cases o <;> exact hs
  · exact h

theorem deleteNote_preserves (Q : Container → Prop)
    (hQ : ∀ notes previous, Q (renderNotes notes previous))
    (index : Int) (n : NotesState) (h : Q n.notesContainer) :
    Q (deleteNote index n).1.notesContainer := by
  cases hparse : parseStored n.localStorage with
  | error e => simp only [deleteNote, hparse]; exact h
  | ok parsed =>
    cases parsed with
    | null => simp only [deleteNote, hparse]; exact h
    | strings notes =>
      simp only [deleteNote, hparse]
      exact hQ _ _

theorem loadUserNotes_establishes (Q : Container → Prop)
    (hQ : ∀ notes previous, Q (renderNotes notes previous))
    (n : NotesState) (h : Q n.notesContainer) : Q (loadUserNotes n).1.notesContainer := by
  cases hparse : parseStoredOrEmpty n.localStorage with
  | error e => simp only [loadUserNotes, hparse]; exact h
  | ok notes => simp only [loadUserNotes, hparse]; exact hQ _ _

theorem renderNotes_hiddenOnlyIfSelected (notes : List String) (previous : Container) :
    hiddenOnlyIfSelected (renderNotes notes previous) :=
  hiddenOnlyIfSelected_of_allUnset _ (renderNotes_unset notes previous)

theorem renderLibrary_hiddenOnlyIfSelected (chapters : Option (List Chapter))
    (previous : Container) : hiddenOnlyIfSelected (renderLibrary chapters previous).1 :=
  hiddenOnlyIfSelected_of_allUnset _ (renderLibrary_unset chapters previous)

theorem invariant_step (B : Browser) (s : AppState) (e : Event) (h : s.invariant) :
    (step B s e).invariant := by
  intro v
  cases e with
  | navigate target =>
    have : (step B s (Event.navigate target)).container v = s.container v := by cases v <;> rfl
    rw [this]; exact h v
  | searchInput value =>
    show hiddenOnlyIfSelected ((onSearchInput B value s).container v)
    rw [container_onSearchInput]
    split_ifs
    · exact hiddenOnlyIfSelected_searchContainer B _ _ (h v)
    · exact h v
  | languageChange lang =>
    cases v
    · intro card hmem; simp [step, onLanguageChange, AppState.container, cardsOf, loadingParagraph] at hmem
    · exact h ViewId.activities
    · exact h ViewId.library
    · exact h ViewId.notes
  | scriptsSettled lang result =>
    cases v
    · exact hiddenOnlyIfSelected_of_allUnset _
        (fetchScripts_unset s.currentLang lang result s.scriptsContainer)
    · exact h ViewId.activities
    · exact h ViewId.library
    · exact h ViewId.notes
  | activitiesSettled result =>
    cases v
    · exact h ViewId.scripts
    · exact fetchActivities_preserves result _ (h ViewId.activities)
    · exact h ViewId.library
    · exact h ViewId.notes
  | librarySettled result =>
    cases v
    · exact h ViewId.scripts
    · exact h ViewId.activities
    · exact fetchLibrary_preserves _ renderLibrary_hiddenOnlyIfSelected result _ (h ViewId.library)
    · exact h ViewId.notes
  | headerClick view index =>
    show hiddenOnlyIfSelected ((s.setContainer view (toggleAt index (s.container view))).container v)
    rw [container_setContainer]
    split_ifs with hv
    · subst hv
      intro card hmem
      rw [cardsOf_toggleAt] at hmem
      exact h v card hmem
    · exact h v
  | noteSubmit text =>
    cases v
    · exact h ViewId.scripts
    · exact h ViewId.activities
    · exact h ViewId.library
    · exact addNote_preserves _ renderNotes_hiddenOnlyIfSelected text s.notes (h ViewId.notes)
  | deleteClick index =>
    cases v
    · exact h ViewId.scripts
    · exact h ViewId.activities
    · exact h ViewId.library
    · exact deleteNote_preserves _ renderNotes_hiddenOnlyIfSelected index s.notes (h ViewId.notes)
  | voicesChanged voices =>
    have : (step B s (Event.voicesChanged voices)).container v = s.container v := by cases v <;> rfl
    rw [this]; exact h v
  | speak engineVoices text lang =>
    have : (step B s (Event.speak engineVoices text lang)).container v = s.container v := by
      cases v <;> rfl
    rw [this]; exact h v

/-- Every state the page can be in satisfies the invariant. -/
theorem invariant_of_reachable (B : Browser) (s : AppState) (h : Reachable B s) : s.invariant := by
  induction h with
  | init engineVoices stored => exact invariant_initState engineVoices stored
  | step e _ ih => exact invariant_step B _ e ih

/-- C5. In every state the page can be in, running the search filter with the empty
query leaves every card of the active view visible and leaves the open or closed
state of every accordion, in every view, exactly as it was. -/
theorem search_empty_query (B : Browser) (s : AppState) (h : Reachable B s) :
    (∀ card ∈ cardsOf (onSearchInput B "" s).activeContainer, card.visible = true) ∧
    (∀ v, openStates ((onSearchInput B "" s).container v) = openStates (s.container v)) := by
  have hinv := invariant_of_reachable B s h
  constructor
  · intro card hmem
    have hview : (onSearchInput B "" s).currentView = s.currentView := by
      unfold onSearchInput; rw [currentView_setContainer]
    unfold AppState.activeContainer at hmem
    rw [hview, container_onSearchInput, if_pos rfl, cardsOf_searchContainer] at hmem
    obtain ⟨old, hold, rfl⟩ := List.mem_map.mp hmem
    by_cases hsel : matchesSelector old = true
    · rw [filterCard_visible_iff B _ old hsel, B.toLowerCase_empty]
      exact includes_empty _
    · have hsel' : matchesSelector old = false := by simpa using hsel
      rw [filterCard_of_not_selected B _ old hsel']
      cases hd : old.display with
      | unset => simp [Card.visible, hd]
      | flex => simp [Card.visible, hd]
      | none => exact absurd (hinv s.currentView old hold hd) hsel
  · intro v
    rw [container_onSearchInput]
    split_ifs
    · unfold openStates
      rw [accordionsOf_searchContainer, B.toLowerCase_empty]
      simp [utf16Length]
    · rfl

/-- The witness of C5: a state reached by loading scripts and searching `zz`, which
hides both cards; the empty query then shows them again and opens nothing. -/
theorem search_empty_query_witness :
    Reachable exampleBrowser exampleScriptsState ∧
    (cardsOf exampleScriptsState.activeContainer).map (fun card => card.visible) = [false, false] ∧
    (∀ card ∈ cardsOf (onSearchInput exampleBrowser "" exampleScriptsState).activeContainer,
      card.visible = true) ∧
    (∀ v, openStates ((onSearchInput exampleBrowser "" exampleScriptsState).container v) =
      openStates (exampleScriptsState.container v)) :=
  have hreach : Reachable exampleBrowser exampleScriptsState :=
    Reachable.step _ (Reachable.step _ (Reachable.init [] none))
  ⟨hreach, by decide, search_empty_query exampleBrowser exampleScriptsState hreach⟩

/-! ## The search filter in the scripts, library and notes views -/

theorem allSelected_nil : allSelected [] := containerAll_nil

theorem allSelected_of_phrase (c : Container) (h : containerAll phraseCard c) : allSelected c :=
  containerAll_mono c (fun _ hc => hc.2) h

theorem allSelected_searchContainer (B : Browser) (query : String) (c : Container)
    (h : allSelected c) : allSelected (searchContainer B query c) := by
  intro card hmem
  rw [cardsOf_searchContainer] at hmem
  obtain ⟨old, hold, rfl⟩ := List.mem_map.mp hmem
  rw [matchesSelector_filterCard]
  exact h old hold

theorem renderNotes_allSelected (notes : List String) (previous : Container) :
    allSelected (renderNotes notes previous) :=
  allSelected_of_phrase _ (renderNotes_phrase notes previous)

theorem renderLibrary_allSelected (chapters : Option (List Chapter)) (previous : Container) :
    allSelected (renderLibrary chapters previous).1 :=
  allSelected_of_phrase _ (renderLibrary_phrase chapters previous)

theorem phraseViewsSelected_initState (engineVoices : List Voice) (stored : Option String) :
    (initState engineVoices stored).phraseViewsSelected := by
  intro v hv
  cases v
  · intro card h; simp [initState, AppState.container, cardsOf, loadingParagraph] at h
  · exact absurd rfl hv
  · exact allSelected_nil
  · exact loadUserNotes_establishes allSelected renderNotes_allSelected
      { localStorage := stored, notesContainer := [], noteInput := "" } allSelected_nil

theorem phraseViewsSelected_step (B : Browser) (s : AppState) (e : Event)
    (h : s.phraseViewsSelected) : (step B s e).phraseViewsSelected := by
  intro v hv
  cases e with
  | navigate target =>
    have : (step B s (Event.navigate target)).container v = s.container v := by cases v <;> rfl
    rw [this]; exact h v hv
  | searchInput value =>
    show allSelected ((onSearchInput B value s).container v)
    rw [container_onSearchInput]
    split_ifs
    · exact allSelected_searchContainer B _ _ (h v hv)
    · exact h v hv
  | languageChange lang =>
    cases v
    · intro card hmem; simp [step, onLanguageChange, AppState.container, cardsOf, loadingParagraph] at hmem
    · exact absurd rfl hv
    · exact h ViewId.library hv
    · exact h ViewId.notes hv
  | scriptsSettled lang result =>
    cases v
    · exact allSelected_of_phrase _ (fetchScripts_phrase s.currentLang lang result s.scriptsContainer)
    · exact absurd rfl hv
    · exact h ViewId.library hv
    · exact h ViewId.notes hv
  | activitiesSettled result =>
    cases v
    · exact h ViewId.scripts hv
    · exact absurd rfl hv
    · exact h ViewId.library hv
    · exact h ViewId.notes hv
  | librarySettled result =>
    cases v
    · exact h ViewId.scripts hv
    · exact absurd rfl hv
    · exact fetchLibrary_preserves _ renderLibrary_allSelected result _ (h ViewId.library hv)
    · exact h ViewId.notes hv
  | headerClick view index =>
    show allSelected ((s.setContainer view (toggleAt index (s.container view))).container v)
    rw [container_setContainer]
    split_ifs with hview
    · subst hview
      intro card hmem
      rw [cardsOf_toggleAt] at hmem
      exact h v hv card hmem
    · exact h v hv
  | noteSubmit text =>
    cases v
    · exact h ViewId.scripts hv
    · exact absurd rfl hv
    · exact h ViewId.library hv
    · exact addNote_preserves _ renderNotes_allSelected text s.notes (h ViewId.notes hv)
  | deleteClick index =>
    cases v
    · exact h ViewId.scripts hv
    · exact absurd rfl hv
    · exact h ViewId.library hv
    · exact deleteNote_preserves _ renderNotes_allSelected index s.notes (h ViewId.notes hv)
  | voicesChanged voices =>
    have : (step B s (Event.voicesChanged voices)).container v = s.container v := by cases v <;> rfl
    rw [this]; exact h v hv
  | speak engineVoices text lang =>
    have : (step B s (Event.speak engineVoices text lang)).container v = s.container v := by
      cases v <;> rfl
    rw [this]; exact h v hv

theorem phraseViewsSelected_of_reachable (B : Browser) (s : AppState) (h : Reachable B s) :
    s.phraseViewsSelected := by
  induction h with
  | init engineVoices stored => exact phraseViewsSelected_initState engineVoices stored
  | step e _ ih => exact phraseViewsSelected_step B _ e ih

theorem mem_cardsOf_of_mem_accordion (c : Container) (a : Accordion)
    (ha : a ∈ accordionsOf c) (card : Card) (hcard : card ∈ contentCards a.content) :
    card ∈ cardsOf c := by
  induction c with
  | nil => simp [accordionsOf] at ha
  | cons x rest ih =>
    cases x with
    | accordion b =>
      simp only [accordionsOf, List.mem_cons] at ha
      rcases ha with rfl | ha
      · simp [cardsOf, hcard]
      · simp [cardsOf, ih ha]
    | card c => simp only [accordionsOf] at ha; simp [cardsOf, ih ha]
    | paragraph st t => simp only [accordionsOf] at ha; simp [cardsOf, ih ha]

theorem any_congr_of_mem {α : Type} (l : List α) (f g : α → Bool)
    (h : ∀ x ∈ l, f x = g x) : l.any f = l.any g := by
  induction l with
  | nil => rfl
  | cons x rest ih =>
    simp only [List.any_cons, h x (List.mem_cons_self x rest),
      ih (fun y hy => h y (List.mem_cons_of_mem x hy))]

/-- In every state the page can be in whose active view is the scripts, library or
notes view, after the filter ran on the value typed: the cards are the old cards in
order, each visible exactly when the lower-cased value occurs in its lower-cased
text; and each accordion is open exactly when it was open before or the lower-cased
value is longer than one and occurs in one of its cards. -/
theorem search_filters_phrase_views (B : Browser) (s : AppState) (value : String)
    (h : Reachable B s) (hview : s.currentView ≠ ViewId.activities) :
    cardsOf (onSearchInput B value s).activeContainer =
      (cardsOf s.activeContainer).map (filterCard B (B.toLowerCase value)) ∧
    (∀ card ∈ cardsOf s.activeContainer,
      (filterCard B (B.toLowerCase value) card).visible = cardMatches B (B.toLowerCase value) card) ∧
    openStates (onSearchInput B value s).activeContainer =
      (accordionsOf s.activeContainer).map (fun a =>
        a.isOpen || (decide (utf16Length (B.toLowerCase value) > 1) &&
          (contentCards a.content).any (fun card => cardMatches B (B.toLowerCase value) card))) := by
  have hsel := phraseViewsSelected_of_reachable B s h s.currentView hview
  have hcur : (onSearchInput B value s).currentView = s.currentView := by
    unfold onSearchInput; rw [currentView_setContainer]
  have hact : (onSearchInput B value s).activeContainer =
      searchContainer B (B.toLowerCase value) s.activeContainer := by
    unfold AppState.activeContainer
    rw [hcur, container_onSearchInput, if_pos rfl]
  refine ⟨by rw [hact, cardsOf_searchContainer], ?_, ?_⟩
  · intro card hmem
    exact filterCard_visible_iff B _ card (hsel card hmem)
  · rw [hact]
    unfold openStates
    rw [accordionsOf_searchContainer, List.map_map]
    apply List.map_congr_left
    intro a ha
    have hcards : ∀ card ∈ contentCards a.content, matchesSelector card = true :=
      fun card hcard => hsel card (mem_cardsOf_of_mem_accordion _ a ha card hcard)
    simp only [Function.comp_apply]
    congr 2
    apply any_congr_of_mem
    intro card hcard
    simp [hcards card hcard]

/-! ## The activities view is out of reach of the search filter -/

theorem searchContent_of_plain (B : Browser) (query : String) (items : List ContentItem)
    (isOpen : Bool) (h : contentAll plainCard items) :
    searchContent B query items isOpen = (items, isOpen) := by
  induction items generalizing isOpen with
  | nil => rfl
  | cons x rest ih =>
    cases x with
    | categoryTitle t =>
      have hrest : contentAll plainCard rest := fun card hmem => h card (by simpa [contentCards] using hmem)
      simp [searchContent, ih _ hrest]
    | desc t =>
      have hrest : contentAll plainCard rest := fun card hmem => h card (by simpa [contentCards] using hmem)
      simp [searchContent, ih _ hrest]
    | card c =>
      have hrest : contentAll plainCard rest :=
        fun card hmem => h card (by simp [contentCards, hmem])
      have hc : matchesSelector c = false := (h c (by simp [contentCards])).2
      simp [searchContent, hc, ih _ hrest]

theorem searchContainer_of_plain (B : Browser) (query : String) (c : Container)
    (h : containerAll plainCard c) : searchContainer B query c = c := by
  induction c with
  | nil => rfl
  | cons x rest ih =>
    cases x with
    | accordion a =>
      have hrest : containerAll plainCard rest := fun card hmem => h card (by simp [cardsOf, hmem])
      have ha : contentAll plainCard a.content := fun card hmem => h card (by simp [cardsOf, hmem])
      simp [searchContainer, ih hrest, searchContent_of_plain B query a.content a.isOpen ha]
    | card c =>
      have hrest : containerAll plainCard rest := fun card hmem => h card (by simp [cardsOf, hmem])
      have hc : matchesSelector c = false := (h c (by simp [cardsOf])).2
      simp [searchContainer, ih hrest, hc]
    | paragraph st t =>
      have hrest : containerAll plainCard rest := fun card hmem => h card (by simpa [cardsOf] using hmem)
      simp [searchContainer, ih hrest]

/-- Whatever the activities document and the query, the search loop changes nothing
in the view `renderActivities` built: its cards carry the class `card` only, and the
selector asks for `phrase-card` or `activity-card`. -/
theorem search_leaves_activities (B : Browser) (query : String) (data : ActivityDocument)
    (previous : Container) :
    searchContainer B query (renderActivities data previous).1 = (renderActivities data previous).1 :=
  searchContainer_of_plain B query _ (renderActivities_plain data previous)

/-- C3 at the failing input: in the activities view the query `zzz` occurs in no
card, and yet after the filter ran every card is still visible and the view is
unchanged. -/
theorem search_activity_cards_stay_visible :
    exampleActivitiesState.currentView = ViewId.activities ∧
    (cardsOf exampleActivitiesState.activeContainer).map (fun card => card.body) =
      [CardBody.warning "Warm up first", CardBody.warning "Drink water"] ∧
    (onSearchInput exampleBrowser "zzz" exampleActivitiesState).activeContainer =
      exampleActivitiesState.activeContainer ∧
    (cardsOf (onSearchInput exampleBrowser "zzz" exampleActivitiesState).activeContainer).map
        (fun card => (cardMatches exampleBrowser (exampleBrowser.toLowerCase "zzz") card, card.visible)) =
      [(false, true), (false, true)] := by
  decide

/-- C4 at the failing input: in the activities view the query `warm` (longer than
one) occurs in the first card only, and yet after the filter ran the accordion that
owns the card is still closed and the second card is not hidden. -/
theorem search_activity_accordion_stays_closed :
    exampleActivitiesState.currentView = ViewId.activities ∧
    utf16Length (exampleBrowser.toLowerCase "warm") > 1 ∧
    (cardsOf (onSearchInput exampleBrowser "warm" exampleActivitiesState).activeContainer).map
        (fun card => (cardMatches exampleBrowser (exampleBrowser.toLowerCase "warm") card, card.visible)) =
      [(true, true), (false, true)] ∧
    openStates (onSearchInput exampleBrowser "warm" exampleActivitiesState).activeContainer =
      [false] := by
  decide

/-! ## `JSON.parse` reads back what `JSON.stringify` wrote -/

theorem run_nil (r : Reader) : r.run [] = some r := rfl

theorem run_cons (r : Reader) (c : Char) (cs : List Char) :
    r.run (c :: cs) = (r.step c).bind (fun r' => r'.run cs) := by
  simp [Reader.run, List.foldlM_cons, Option.bind_eq_bind]

theorem run_append (r : Reader) (a b : List Char) :
    r.run (a ++ b) = (r.run a).bind (fun r' => r'.run b) := by
  simp [Reader.run, List.foldlM_append, Option.bind_eq_bind]

theorem hexValue_hexDigit (d : Nat) (h : d < 16) : hexValue (hexDigit d) = some d := by
  interval_cases d <;> rfl

theorem run_escape (elements : List String) (current : List Char) (e x : Char)
    (hu : e ≠ 'u') (hx : unescape e = some x) :
    Reader.run { mode := Mode.inString, elements := elements, current := current } [backslash, e] =
      some { mode := Mode.inString, elements := elements, current := current ++ [x] } := by
  have hbd : backslash ≠ dquote := by decide
  simp [run_cons, run_nil, Reader.step, hbd, hu, hx]

theorem run_unicode (elements : List String) (current : List Char) (n : Nat) (hn : n < 32) :
    Reader.run { mode := Mode.inString, elements := elements, current := current }
        [backslash, 'u', '0', '0', hexDigit (n / 16), hexDigit (n % 16)] =
      some { mode := Mode.inString, elements := elements, current := current ++ [Char.ofNat n] } := by
  have hbd : backslash ≠ dquote := by decide
  have h0 : hexValue '0' = some 0 := by decide
  have h1 := hexValue_hexDigit (n / 16) (by omega)
  have h2 := hexValue_hexDigit (n % 16) (by omega)
  have hvalid : (16 * (n / 16) + n % 16).isValidChar := by
    left; omega
  have hcode : 16 * (n / 16) + n % 16 = n := by omega
  simp [run_cons, run_nil, Reader.step, hbd, h0, h1, h2, hvalid, hcode]
  omega

theorem run_quoteChar (elements : List String) (current : List Char) (c : Char) :
    Reader.run { mode := Mode.inString, elements := elements, current := current } (quoteChar c) =
      some { mode := Mode.inString, elements := elements, current := current ++ [c] } := by
  have hof : Char.ofNat c.toNat = c := Char.ofNat_toNat c
  by_cases h1 : c = dquote
  · subst h1
    rw [show quoteChar dquote = [backslash, dquote] by decide]
    exact run_escape _ _ _ _ (by decide) (by decide)
  by_cases h2 : c = backslash
  · subst h2
    rw [show quoteChar backslash = [backslash, backslash] by decide]
    exact run_escape _ _ _ _ (by decide) (by decide)
  by_cases h3 : c.toNat = 8
  · rw [h3] at hof; subst hof
    rw [show quoteChar (Char.ofNat 8) = [backslash, 'b'] by decide]
    exact run_escape _ _ _ _ (by decide) (by decide)
  by_cases h4 : c.toNat = 12
  · rw [h4] at hof; subst hof
    rw [show quoteChar (Char.ofNat 12) = [backslash, 'f'] by decide]
    exact run_escape _ _ _ _ (by decide) (by decide)
  by_cases h5 : c.toNat = 10
  · rw [h5] at hof; subst hof
    rw [show quoteChar (Char.ofNat 10) = [backslash, 'n'] by decide]
    exact run_escape _ _ _ _ (by decide) (by decide)
  by_cases h6 : c.toNat = 13
  · rw [h6] at hof; subst hof
    rw [show quoteChar (Char.ofNat 13) = [backslash, 'r'] by decide]
    exact run_escape _ _ _ _ (by decide) (by decide)
  by_cases h7 : c.toNat = 9
  · rw [h7] at hof; subst hof
    rw [show quoteChar (Char.ofNat 9) = [backslash, 't'] by decide]
    exact run_escape _ _ _ _ (by decide) (by decide)
  by_cases h8 : c.toNat < 32
  · have hq : quoteChar c =
        [backslash, 'u', '0', '0', hexDigit (c.toNat / 16), hexDigit (c.toNat % 16)] := by
      simp [quoteChar, h1, h2, h3, h4, h5, h6, h7, h8]
    rw [hq, run_unicode elements current c.toNat h8, hof]
  · have hq : quoteChar c = [c] := by
      simp [quoteChar, h1, h2, h3, h4, h5, h6, h7, h8]
    rw [hq]
    simp [run_cons, run_nil, Reader.step, h1, h2, h8]

theorem run_quoteChars (elements : List String) (current s : List Char) :
    Reader.run { mode := Mode.inString, elements := elements, current := current }
        (s.flatMap quoteChar) =
      some { mode := Mode.inString, elements := elements, current := current ++ s } := by
  induction s generalizing current with
  | nil => simp [run_nil]
  | cons c rest ih =>
    rw [List.flatMap_cons, run_append, run_quoteChar, Option.some_bind, ih]
    simp

/-- A quoted string read from a position where a string may start. -/
theorem run_quoteString (r : Reader) (s : String) (rest : List Char)
    (hmode : r.mode = Mode.afterOpen ∨ r.mode = Mode.afterComma) :
    r.run (quoteString s ++ rest) =
      Reader.run { mode := Mode.afterElement, elements := r.elements ++ [s], current := [] } rest := by
  have hstart : r.step dquote =
      some { mode := Mode.inString, elements := r.elements, current := [] } := by
    have hd : dquote ≠ ']' := by decide
    rcases hmode with h | h <;> simp [Reader.step, h, hd]
  unfold quoteString
  rw [List.cons_append, run_cons, hstart, Option.some_bind, List.append_assoc, run_append,
    run_quoteChars, Option.some_bind, List.singleton_append, run_cons]
  simp [Reader.step]

theorem run_quoteElements (r : Reader) (notes : List String) (rest : List Char)
    (hne : notes ≠ []) (hmode : r.mode = Mode.afterOpen ∨ r.mode = Mode.afterComma) :
    r.run (quoteElements notes ++ rest) =
      Reader.run { mode := Mode.afterElement, elements := r.elements ++ notes, current := [] }
        rest := by
  induction notes generalizing r with
  | nil => exact absurd rfl hne
  | cons s tail ih =>
    cases tail with
    | nil => simpa [quoteElements] using run_quoteString r s rest hmode
    | cons t tail' =>
      have hc : (',' : Char) ≠ ']' := by decide
      rw [quoteElements, List.append_assoc, run_quoteString r s _ hmode, List.cons_append, run_cons]
      simp only [Reader.step, hc, if_false, if_true, Option.some_bind]
      rw [ih { mode := Mode.afterComma, elements := r.elements ++ [s], current := [] }
        (List.cons_ne_nil t _) (Or.inr rfl)]
      · simp
      · exact List.cons_ne_nil t _

/-- The text `JSON.stringify` writes for an array of strings is read back by
`JSON.parse` as the same array. -/
theorem JSON_parse_stringify (notes : List String) :
    JSON_parse (JSON_stringify notes) = some (Parsed.strings notes) := by
  have hnull : JSON_stringify notes ≠ "null" := by
    intro h
    have := congrArg (fun t => t.data.head?) h
    simp [JSON_stringify] at this
  unfold JSON_parse
  rw [if_neg hnull]
  have hrun : Reader.run { mode := Mode.start, elements := [], current := [] }
      (JSON_stringify notes).data = some { mode := Mode.done, elements := notes, current := [] } := by
    simp only [JSON_stringify]
    rw [run_cons]
    simp only [Reader.step, if_true, Option.some_bind]
    by_cases hne : notes = []
    · subst hne
      simp [quoteElements, run_cons, run_nil, Reader.step]
    · rw [run_quoteElements _ notes _ hne (Or.inl rfl), run_cons]
      simp [Reader.step, run_nil]
  rw [hrun]
  simp

/-! ## Notes -/

theorem persistedNotes_stringify (n : NotesState) (notes : List String)
    (h : n.localStorage = some (JSON_stringify notes)) :
    persistedNotes n = Except.ok notes := by
  simp [persistedNotes, parseStoredOrEmpty, parseStored, h, JSON_parse_stringify]

theorem trim_of_isBlank (text : String) (h : isBlank text = true) : trim text = "" := by
  have hall : ∀ c ∈ text.data, isTrimmed c = true := by
    simpa [isBlank, List.all_eq_true] using h
  have hdrop : text.data.dropWhile isTrimmed = [] := List.dropWhile_eq_nil_iff.mpr hall
  simp [trim, hdrop, List.rdropWhile_nil]

theorem trim_ne_empty (text : String) (h : isBlank text = false) : trim text ≠ "" := by
  intro hempty
  have hdata : (text.data.dropWhile isTrimmed).rdropWhile isTrimmed = [] := by
    have := congrArg String.data hempty
    simpa [trim] using this
  have hall := List.rdropWhile_eq_nil_iff.mp hdata
  have hdrop : text.data.dropWhile isTrimmed = [] := by
    cases hd : text.data.dropWhile isTrimmed with
    | nil => rfl
    | cons c rest =>
      have hc : isTrimmed c = true := hall c (by rw [hd]; exact List.mem_cons_self c rest)
      have hnot := List.head_dropWhile_not isTrimmed text.data (by rw [hd]; simp)
      simp [hd] at hnot
      rw [hnot] at hc
      cases hc
  have hblank : isBlank text = true := by
    simpa [isBlank, List.all_eq_true] using List.dropWhile_eq_nil_iff.mp hdrop
  rw [hblank] at h
  cases h

/-- C7. For every state of the notes store and every text that is empty or holds
only white space, submitting the text raises nothing and changes neither the stored
item nor the rendered notes. -/
theorem addNote_blank (n : NotesState) (text : String) (h : isBlank text = true) :
    (addNote text n).2 = Outcome.normal ∧
    (addNote text n).1.localStorage = n.localStorage ∧
    persistedNotes (addNote text n).1 = persistedNotes n ∧
    (addNote text n).1.notesContainer = n.notesContainer := by
  have ht := trim_of_isBlank text h
  simp [addNote, onNoteSubmit, ht, persistedNotes]

/-- The witness of C7: two spaces submitted on a store holding one note. -/
theorem addNote_blank_witness :
    isBlank "  " = true ∧
    (addNote "  " { emptyNotes with localStorage := some (JSON_stringify ["hello"]) }).2 =
      Outcome.normal ∧
    persistedNotes (addNote "  " { emptyNotes with localStorage := some (JSON_stringify ["hello"]) }).1 =
      Except.ok ["hello"] :=
  have h := addNote_blank { emptyNotes with localStorage := some (JSON_stringify ["hello"]) } "  "
    (by decide)
  ⟨by decide, h.1, h.2.2.1.trans (by decide)⟩

/-- C6, amended. For every persisted note sequence and every text that is not blank,
submitting the text raises nothing, and the notes read back are the old sequence
followed by the text with leading and trailing white space removed; the stored item
is the JSON text of that sequence. -/
theorem addNote_then_load (n : NotesState) (old : List String) (text : String)
    (hold : persistedNotes n = Except.ok old) (haccept : isBlank text = false) :
    (addNote text n).2 = Outcome.normal ∧
    (addNote text n).1.localStorage = some (JSON_stringify (old ++ [trim text])) ∧
    persistedNotes (addNote text n).1 = Except.ok (old ++ [trim text]) ∧
    (loadUserNotes (addNote text n).1).1.notesContainer = renderNotes (old ++ [trim text]) [] := by
  have hne : trim text ≠ "" := trim_ne_empty text haccept
  have hbne : (trim text != "") = true := by simpa using hne
  have hparse : parseStoredOrEmpty n.localStorage = Except.ok old := hold
  have hstored : persistedNotes
      { localStorage := some (JSON_stringify (old ++ [trim text]))
        notesContainer := renderNotes (old ++ [trim text]) n.notesContainer
        noteInput := "" } = Except.ok (old ++ [trim text]) :=
    persistedNotes_stringify _ _ rfl
  simp only [addNote, onNoteSubmit, hbne, if_true, saveNote, hparse]
  refine ⟨trivial, trivial, hstored, ?_⟩
  simp only [loadUserNotes]
  rw [show parseStoredOrEmpty (some (JSON_stringify (old ++ [trim text]))) =
    Except.ok (old ++ [trim text]) from hstored]
  rfl

/-- The witness of C6, amended: `hello` surrounded by spaces, added to a store that
holds one note, is read back as `hello`. -/
theorem addNote_then_load_witness :
    persistedNotes { emptyNotes with localStorage := some (JSON_stringify ["first"]) } =
      Except.ok ["first"] ∧
    isBlank " hello " = false ∧
    persistedNotes
        (addNote " hello " { emptyNotes with localStorage := some (JSON_stringify ["first"]) }).1 =
      Except.ok ["first", "hello"] :=
  have h := addNote_then_load { emptyNotes with localStorage := some (JSON_stringify ["first"]) }
    ["first"] " hello " (by decide) (by decide)
  ⟨by decide, by decide, h.2.2.1.trans (by decide)⟩

/-- C6 as stated fails: the text ` hello` (with a leading space) is accepted, and the
note read back is `hello`, not the text as it was entered. -/
theorem addNote_trims_counterexample :
    isBlank " hello" = false ∧
    persistedNotes emptyNotes = Except.ok [] ∧
    persistedNotes (addNote " hello" emptyNotes).1 = Except.ok ["hello"] ∧
    persistedNotes (addNote " hello" emptyNotes).1 ≠ Except.ok ([] ++ [" hello"]) := by
  decide

theorem splice1_of_lt (notes : List String) (k : Nat) (h : k < notes.length) :
    splice1 notes (k : Int) = notes.eraseIdx k := by
  unfold splice1
  have h1 : ¬ ((k : Int) < 0) := by omega
  have h2 : min (k : Int) (notes.length : Int) = (k : Int) := by omega
  simp [h1, h2]

/-- C8. For every stored note sequence of length `n` and every index `k < n`,
`deleteNote(k)` raises nothing, reads the stored sequence and stores exactly that
sequence without its `k`-th element: the length is `n - 1`, the elements before `k`
keep their index, every element after `k` moves down by one; the notes read back and
the notes shown are that sequence. -/
theorem deleteNote_removes (n : NotesState) (old : List String) (k : Nat)
    (hstored : parseStored n.localStorage = Except.ok (Parsed.strings old))
    (hk : k < old.length) :
    (deleteNote (k : Int) n).2 = Outcome.normal ∧
    (deleteNote (k : Int) n).1.localStorage = some (JSON_stringify (old.eraseIdx k)) ∧
    persistedNotes (deleteNote (k : Int) n).1 = Except.ok (old.eraseIdx k) ∧
    (deleteNote (k : Int) n).1.notesContainer = renderNotes (old.eraseIdx k) [] ∧
    (old.eraseIdx k).length = old.length - 1 ∧
    (∀ i, i < k → (old.eraseIdx k)[i]? = old[i]?) ∧
    (∀ i, k ≤ i → (old.eraseIdx k)[i]? = old[i + 1]?) := by
  have hsplice := splice1_of_lt old k hk
  have hread : persistedNotes
      { localStorage := some (JSON_stringify (old.eraseIdx k))
        notesContainer := renderNotes (old.eraseIdx k) n.notesContainer
        noteInput := n.noteInput } = Except.ok (old.eraseIdx k) :=
    persistedNotes_stringify _ _ rfl
  simp only [deleteNote, hstored, hsplice]
  exact ⟨trivial, trivial, hread, rfl, List.length_eraseIdx_of_lt hk,
    fun i hi => List.getElem?_eraseIdx_of_lt old k i hi,
    fun i hi => List.getElem?_eraseIdx_of_ge old k i hi⟩

/-- The witness of C8: starting from an empty store, `hello` is added and index 0 is
deleted; the stored text is then `[]` and the notes read back are empty. -/
theorem deleteNote_removes_witness :
    parseStored (addNote "hello" emptyNotes).1.localStorage =
      Except.ok (Parsed.strings ["hello"]) ∧
    0 < ["hello"].length ∧
    (deleteNote 0 (addNote "hello" emptyNotes).1).2 = Outcome.normal ∧
    (deleteNote 0 (addNote "hello" emptyNotes).1).1.localStorage = some "[]" ∧
    persistedNotes (deleteNote 0 (addNote "hello" emptyNotes).1).1 = Except.ok [] :=
  have h := deleteNote_removes (addNote "hello" emptyNotes).1 ["hello"] 0 (by decide) (by decide)
  ⟨by decide, by decide, h.1, h.2.1.trans (by decide), h.2.2.1⟩

/-! ## Actions of the note cards -/

theorem enumFrom_forEach_noteStep (notes : List String) (start : Nat) (container : Container) :
    forEach (notes.enumFrom start) noteStep container =
      (container ++ (notes.enumFrom start).map
        (fun e => ViewItem.card (expectedNoteCard "en" e.1 e.2)), Outcome.normal) := by
  have h := forEach_append (notes.enumFrom start) noteStep
    (fun e => [ViewItem.card (expectedNoteCard "en" e.1 e.2)])
    (fun e _ s => by simp [noteStep, createCard, appendChild, expectedNoteCard]) container
  rw [h, flatMap_singleton_eq_map]

/-- C10, amended. Whatever the active language, the cards `renderNotes` builds are, in
order, one card per note whose speak action is bound to the fixed language `en`,
followed by a copy action and a delete action for the index of the note. -/
theorem renderNotes_actions (currentLang : String) (notes : List String) (previous : Container) :
    renderNotes notes previous =
      notes.enum.map (fun e => ViewItem.card (expectedNoteCard "en" e.1 e.2)) ∧
    (cardsOf (renderNotes notes previous)).map (fun card => card.actions.map (fun b => b.onclick)) =
      notes.enum.map (fun e => [Action.speak e.2 "en", Action.copy e.2, Action.delete e.1]) ∧
    (currentLang ≠ "en" →
      ∀ card ∈ cardsOf (renderNotes notes previous), ∀ b ∈ card.actions, ∀ text,
        b.onclick ≠ Action.speak text currentLang) := by
  have hrender : renderNotes notes previous =
      notes.enum.map (fun e => ViewItem.card (expectedNoteCard "en" e.1 e.2)) := by
    simp [renderNotes, List.enum, enumFrom_forEach_noteStep]
  have hcards : ∀ (l : List (Nat × String)),
      cardsOf (l.map (fun e => ViewItem.card (expectedNoteCard "en" e.1 e.2))) =
        l.map (fun e => expectedNoteCard "en" e.1 e.2) := by
    intro l
    induction l with
    | nil => rfl
    | cons e rest ih => simp [cardsOf, ih]
  refine ⟨hrender, ?_, ?_⟩
  · rw [hrender, hcards]
    simp [expectedNoteCard, List.map_map, Function.comp_def]
  · intro hlang card hcard b hb text heq
    rw [hrender, hcards] at hcard
    obtain ⟨e, _, rfl⟩ := List.mem_map.mp hcard
    simp only [expectedNoteCard, List.mem_cons, List.mem_singleton, List.not_mem_nil, or_false] at hb
    rcases hb with rfl | rfl | rfl
    · simp only [Action.speak.injEq] at heq
      exact hlang heq.2.symm
    · cases heq
    · cases heq

/-- The witness of C10, amended: with the active language `it`, the note `ciao` gets
a card that speaks in `en`, copies the note and deletes index 0. -/
theorem renderNotes_actions_witness :
    "it" ≠ "en" ∧
    renderNotes ["ciao"] [] = [ViewItem.card (expectedNoteCard "en" 0 "ciao")] ∧
    (∀ card ∈ cardsOf (renderNotes ["ciao"] []), ∀ b ∈ card.actions, ∀ text,
      b.onclick ≠ Action.speak text "it") :=
  have h := renderNotes_actions "it" ["ciao"] []
  ⟨by decide, h.1, h.2.2 (by decide)⟩

/-- C10 as stated fails: with the active language `it`, the card of a script phrase
speaks in `it`, and the card of a note speaks in `en`. -/
theorem renderNotes_language_counterexample :
    (cardsOf (renderScripts "it" exampleScripts.modules []).1).map
        (fun card => card.actions.map (fun b => b.onclick)) =
      [[Action.speak "Buongiorno" "it", Action.copy "Buongiorno"],
       [Action.speak "Benvenuti" "it", Action.copy "Benvenuti"]] ∧
    ((step exampleBrowser (step exampleBrowser (initState [] none) (Event.languageChange "it"))
        (Event.noteSubmit "ciao")).currentLang = "it") ∧
    (cardsOf (step exampleBrowser (step exampleBrowser (initState [] none) (Event.languageChange "it"))
        (Event.noteSubmit "ciao")).notes.notesContainer).map
        (fun card => card.actions.map (fun b => b.onclick)) =
      [[Action.speak "ciao" "en", Action.copy "ciao", Action.delete 0]] := by
  decide

/-! ## Fetch failures -/

/-- Whenever the scripts request fails or the document has no `modules`, the scripts
view ends holding the error message that names the resource. -/
theorem fetchScripts_failure (currentLang lang : String) (previous : Container) :
    fetchScripts currentLang lang FetchResult.rejected previous = [errorParagraph (scriptsUrl lang)] ∧
    (∀ json, fetchScripts currentLang lang (FetchResult.response false json) previous =
      [errorParagraph (scriptsUrl lang)]) ∧
    fetchScripts currentLang lang (FetchResult.response true none) previous =
      [errorParagraph (scriptsUrl lang)] ∧
    fetchScripts currentLang lang (FetchResult.response true (some { modules := none })) previous =
      [errorParagraph (scriptsUrl lang)] := by
  refine ⟨rfl, fun json => rfl, rfl, rfl⟩

/-- Whatever the activities or library view held, a rejected request or a body that
is not JSON leaves it as it was, and a document without its top-level field leaves
it empty; nothing is added that names the resource. -/
theorem fetch_failures_general (previous : Container) :
    fetchActivities FetchResult.rejected previous = previous ∧
    fetchLibrary FetchResult.rejected previous = previous ∧
    (∀ ok, fetchActivities (FetchResult.response ok none) previous = previous) ∧
    (∀ ok, fetchLibrary (FetchResult.response ok none) previous = previous) ∧
    (∀ ok, fetchActivities (FetchResult.response ok (some { categories := none })) previous = []) ∧
    (∀ ok, fetchLibrary (FetchResult.response ok (some { chapters := none })) previous = []) :=
  ⟨rfl, rfl, fun _ => rfl, fun _ => rfl, fun _ => rfl, fun _ => rfl⟩

/-- C9 at the failing inputs: a library or activities document without its top-level
field leaves an empty view, and a rejected request leaves the view as it was; no
message naming the resource is shown, as it is for the scripts. -/
theorem fetch_failures_silent :
    fetchLibrary (FetchResult.response true (some { chapters := none })) [] = [] ∧
    fetchActivities (FetchResult.response true (some { categories := none })) [] = [] ∧
    fetchLibrary FetchResult.rejected [] = [] ∧
    fetchActivities FetchResult.rejected [] = [] ∧
    fetchScripts "en" "en" (FetchResult.response true (some { modules := none })) [] =
      [ViewItem.paragraph "color:var(--danger); text-align:center;" "Error loading content_en.json"] := by
  decide

end AnimationApp
